import Mathlib

/-!
Shallow embedding of the booking and financial core of the `backend-pms`
hotel property-management backend, together with proofs settling the
frozen claims about its specification.

Modelling conventions, constant across the file:

* Calendar dates (ISO `YYYY-MM-DD` strings in the source) are embedded as
  integers counting days; the source's `new Date(s)` comparisons and
  one-day steps correspond to integer comparison and `+ 1`.
* JavaScript numbers are embedded as exact rationals (`ℚ`);
  `Number(x.toFixed(2))` is `roundCurrency` (scale by 100, round half-up,
  scale back), following the spec's "2 decimals, half-up".
* Timestamps produced by `now()` are abstracted as a single `Nat`-valued
  clock carried in the database state (`Db.time`); no claim depends on
  distinct timestamps inside one operation.
* `undefined`/missing JSON keys are `Option.none`.  The JSON store's
  `update` (`jsonTable.ts`) merges the update object over the stored
  record: a key present in the update overwrites, an absent key keeps the
  stored value.  Records read from the store are JSON clones, so keys
  whose value is `undefined` are dropped; the update payloads are
  therefore embedded as all-`Option` structures where `none` means
  "key absent".
* `nanoid()` is an injective fresh-id supply `genId` driven by a counter
  `Db.nextId`; real ids never collide with generated ones, captured by
  the decidable predicate `FreshDb` where insertion has to succeed.
* Thrown `HttpError`s are `Except.error`; operations that mutate tables
  return the (possibly partially mutated) state together with the
  `Except` result, because in the source a throw does not undo earlier
  table writes.
-/

/-- Error value thrown by the service layer (`HttpError` in
`middlewares/errorHandler`). -/
structure HttpError where
  status : Nat
  message : String
deriving DecidableEq, Repr

deriving instance DecidableEq for Except

/-- Reservation lifecycle status (`ReservationStatus` in `types/domain`). -/
inductive ReservationStatus where
  | DRAFT
  | CONFIRMED
  | CHECKED_IN
  | CHECKED_OUT
  | CANCELLED
deriving DecidableEq, Repr

/-- Room status (`RoomStatus` in `types/domain`). -/
inductive RoomStatus where
  | AVAILABLE
  | OCCUPIED
  | DIRTY
  | OUT_OF_ORDER
deriving DecidableEq, Repr

/-- Rate plan enumeration (`RatePlanCode`). -/
inductive RatePlanCode where
  | BAR
  | CORPORATE
  | PACKAGE
deriving DecidableEq, Repr

/-- Reservation source enumeration (`ReservationSource`). -/
inductive ReservationSource where
  | DIRECT
  | OTA
  | CORPORATE
  | WALK_IN
deriving DecidableEq, Repr

/-- Payment mode enumeration (`PaymentMode`). -/
inductive PaymentMode where
  | CASH
  | CARD
  | UPI
  | BANK_TRANSFER
  | CREDIT
  | OTHER
deriving DecidableEq, Repr

/-- One line of a reservation's embedded billing snapshot
(`ReservationCharge` in `types/domain`: description plus amount). -/
structure ReservationCharge where
  description : String
  amount : ℚ
deriving DecidableEq, Repr

/-- Embedded billing snapshot on a reservation (`ReservationBilling`). -/
structure ReservationBilling where
  currency : String
  totalAmount : ℚ
  balanceDue : ℚ
  charges : List ReservationCharge
deriving DecidableEq, Repr

/-- Stored reservation record (`ReservationRecord`).  Catalog fields not
referenced by any modelled operation (`otaReference`, `notes`, guest
document data, ...) are carried so that snapshot/rollback equality is
meaningful; optional fields are `Option` (a JSON clone drops
`undefined`-valued keys, so `none` = key absent). -/
structure ReservationRecord where
  id : String
  hotelId : String
  hotelCode : String
  guestId : String
  roomId : Option String
  roomType : String
  status : ReservationStatus
  arrivalDate : Int
  departureDate : Int
  adults : Nat
  children : Nat
  nightlyRate : ℚ
  ratePlan : RatePlanCode
  source : ReservationSource
  otaReference : Option String
  isWalkIn : Bool
  notes : Option String
  billing : ReservationBilling
  checkInAt : Option Nat
  checkOutAt : Option Nat
  createdAt : Nat
  updatedAt : Nat
deriving DecidableEq, Repr

/-- Stored room record (`RoomRecord`); catalog fields not read by the
modelled operations (amenities, floor, occupancy, ...) are omitted. -/
structure RoomRecord where
  id : String
  hotelId : String
  hotelCode : String
  number : String
  type : String
  status : RoomStatus
  rate : ℚ
  updatedAt : Nat
deriving DecidableEq, Repr

/-- JavaScript truthiness of an optional string: `undefined` and the
empty string are falsy. -/
def strTruthy : Option String → Bool
  | none => false
  | some s => s != ""

/-- Collapse an optional string to `none` when it is JS-falsy, used to
mirror `if (x) ... else if (y) ...` chains over optional strings. -/
def truthyOpt : Option String → Option String
  | none => none
  | some s => if s == "" then none else some s

/-- Statuses that occupy inventory (`ACTIVE_RESERVATION_STATUSES` in
`reservationService`). -/
def ACTIVE_RESERVATION_STATUSES : List ReservationStatus :=
  [.DRAFT, .CONFIRMED, .CHECKED_IN]

/-- Half-open interval overlap test from `reservationService`
(`rangesOverlap`): `aStart < bEnd && bStart < aEnd`. -/
def rangesOverlap (startA endA startB endB : Int) : Bool :=
  decide (startA < endB) && decide (startB < endA)

/-- The candidate-conflict predicate used inside
`ensureRoomAvailable`'s `reservations.find(...)` callback, in source
order: skip when `roomId` is falsy, when it differs from the target, when
the reservation is the excluded one, or when its status is not active;
otherwise test interval overlap. -/
def conflictsWith (roomId : String) (arrivalDate departureDate : Int)
    (reservationIdToIgnore : Option String) (r : ReservationRecord) : Bool :=
  if !(strTruthy r.roomId) then false
  else if r.roomId != some roomId then false
  else if (match reservationIdToIgnore with
           | some ig => ig != "" && r.id == ig
           | none => false) then false
  else if !(ACTIVE_RESERVATION_STATUSES.contains r.status) then false
  else rangesOverlap r.arrivalDate r.departureDate arrivalDate departureDate

/-- Error thrown by `ensureRoomAvailable` on a conflict. -/
def roomNotAvailableError : HttpError :=
  ⟨409, "Room is not available for the selected dates"⟩

/-- Availability check (`ensureRoomAvailable` in `reservationService`):
scans all reservations and throws 409 when a conflicting one exists. -/
def ensureRoomAvailable (reservations : List ReservationRecord)
    (roomId : String) (arrivalDate departureDate : Int)
    (reservationIdToIgnore : Option String) : Except HttpError Unit :=
  match reservations.find?
      (conflictsWith roomId arrivalDate departureDate reservationIdToIgnore) with
  | some _ => .error roomNotAvailableError
  | none => .ok ()

/-- Is an `Except` result an error (a thrown `HttpError`)? -/
def isError {α : Type} : Except HttpError α → Bool
  | .error _ => true
  | .ok _ => false

/-- Availability listing (`getAvailability` in `reservationService`)
restricted to its room-collecting core: `listRooms()` filters the room
table by the property profile's hotel code, then `getAvailability`
filters by the queried hotel code and optional room type and keeps the
rooms for which `ensureRoomAvailable` does not throw. -/
def getAvailabilityRooms (profileHotelCode : String)
    (rooms : List RoomRecord) (reservations : List ReservationRecord)
    (hotelCode : String) (arrivalDate departureDate : Int)
    (roomType : Option String) : List RoomRecord :=
  let listed := rooms.filter (fun room => room.hotelCode == profileHotelCode)
  let relevantRooms := listed.filter (fun room =>
    room.hotelCode == hotelCode &&
      (!(strTruthy roomType) || some room.type == roomType))
  relevantRooms.filter (fun room =>
    !(isError (ensureRoomAvailable reservations room.id arrivalDate departureDate none)))

/-- Currency rounding (`roundCurrency` in `billingService`,
`Number(amount.toFixed(2))`): scale to cents, round half-up, scale
back. -/
def roundCurrency (amount : ℚ) : ℚ :=
  ((round (amount * 100) : ℤ) : ℚ) / 100

/-- Late-checkout fee rate (`LATE_CHECKOUT_RATE` in `billingService`). -/
def LATE_CHECKOUT_RATE : ℚ := 0.25

/-- Render a rational to two decimals the way `x.toFixed(2)` does, for
the interpolated billing description string. -/
def formatFixed2 (q : ℚ) : String :=
  let cents : Int := round (q * 100)
  let a : Nat := cents.natAbs
  let whole : Nat := a / 100
  let frac : Nat := a % 100
  (if cents < 0 then "-" else "") ++ Nat.repr whole ++ "." ++
    (if frac < 10 then "0" ++ Nat.repr frac else Nat.repr frac)

/-- Initial billing snapshot (`computeBilling` in `reservationService`):
one charge of `nightlyRate × nights`, balance due equal to it. -/
def computeBilling (nightlyRate : ℚ) (nights : Int) (currency : String) :
    ReservationBilling :=
  let base := nightlyRate * nights
  { currency := currency
    totalAmount := base
    balanceDue := base
    charges := [{ description :=
                    Int.repr nights ++ " night(s) @ " ++
                      formatFixed2 nightlyRate ++ " " ++ currency
                  amount := base }] }

/-- Night count (`nightsBetween`): departure minus arrival in days,
rejecting non-positive ranges.  On calendar dates the source's
`Math.ceil` of the millisecond difference is the exact day difference. -/
def nightsBetween (arrival departure : Int) : Except HttpError Int :=
  let diff := departure - arrival
  if diff ≤ 0 then .error ⟨400, "Departure must be after arrival"⟩
  else .ok diff

/-- Options accepted by the settlement calculator
(`SettlementOptions`). -/
structure SettlementOptions where
  lateCheckout : Option Bool := none
  extraCharges : Option (List ReservationCharge) := none
deriving DecidableEq, Repr

/-- Result of the settlement calculator (`SettlementResult`). -/
structure SettlementResult where
  billing : ReservationBilling
deriving DecidableEq, Repr

/-- Settlement calculator (`settleReservation` in `billingService`):
start from the reservation's billing charges, optionally append a
late-checkout fee of `LATE_CHECKOUT_RATE` times the original total
(rounded to 2 decimals), append the extra charges, total everything and
set `balanceDue` to `0`. -/
def settleReservation (reservation : ReservationRecord)
    (options : SettlementOptions) : SettlementResult :=
  let charges := reservation.billing.charges
  let charges :=
    if options.lateCheckout.getD false then
      charges ++ [{ description := "Late checkout fee"
                    amount :=
                      roundCurrency
                        (reservation.billing.totalAmount * LATE_CHECKOUT_RATE) }]
    else charges
  let charges :=
    match options.extraCharges with
    | some extra => charges ++ extra
    | none => charges
  let totalAmount := charges.foldl (fun sum c => sum + c.amount) 0
  { billing := { currency := reservation.billing.currency
                 charges := charges
                 totalAmount := totalAmount
                 balanceDue := 0 } }

/-! ### Ledger data model (`billingService`, `types/domain`) -/

/-- Tax configuration (`TaxConfig`); only `cgst` and `sgst` feed the
charge computation (`calculateTax`), the other configured rates are
unused there. -/
structure TaxConfig where
  cgst : ℚ
  sgst : ℚ
deriving DecidableEq, Repr

/-- Charge type (`"ROOM" | "ADDON" | "ADJUSTMENT"`). -/
inductive ChargeType where
  | ROOM
  | ADDON
  | ADJUSTMENT
deriving DecidableEq, Repr

/-- Named sub-ledger of a bill (`BillFolio`). -/
structure Folio where
  id : String
  name : String
  createdAt : Nat
  updatedAt : Nat
deriving DecidableEq, Repr

/-- Free-form charge metadata; the fields the service itself writes or
reads (`nightDate`, `rate`, `gstPercent`, `quantity`), each optional. -/
structure ChargeMetadata where
  nightDate : Option Int := none
  rate : Option ℚ := none
  gstPercent : Option ℚ := none
  quantity : Option ℚ := none
deriving DecidableEq, Repr

/-- Itemised charge on a bill (`BillCharge`). -/
structure ChargeRecord where
  id : String
  folioId : String
  type : ChargeType
  description : String
  amount : ℚ
  taxAmount : ℚ
  totalAmount : ℚ
  postedAt : Nat
  metadata : ChargeMetadata
deriving DecidableEq, Repr

/-- Stored bill record (`BillRecord`), one per reservation. -/
structure BillRecord where
  id : String
  hotelId : String
  hotelCode : String
  reservationId : String
  folios : List Folio
  charges : List ChargeRecord
  createdAt : Nat
  updatedAt : Nat
deriving DecidableEq, Repr

/-- Stored payment record (`PaymentRecord`); payments are append-only.
The free-form `metadata` passthrough is omitted (never read). -/
structure PaymentRecord where
  id : String
  hotelId : String
  hotelCode : String
  reservationId : String
  folioId : String
  amount : ℚ
  currency : String
  mode : PaymentMode
  reference : Option String
  receivedAt : Nat
  createdAt : Nat
  updatedAt : Nat
deriving DecidableEq, Repr

/-- Derived totals (`BillTotals` in `billingService`). -/
structure BillTotals where
  subTotal : ℚ
  taxTotal : ℚ
  grandTotal : ℚ
  paymentsTotal : ℚ
  balanceDue : ℚ
deriving DecidableEq, Repr

/-! ### The record store (`db/jsonTable.ts`) -/

/-- Whole database state: the JSON tables the modelled operations touch,
plus the abstract clock (`now()`) and the fresh-id counter (`nanoid`). -/
structure Db where
  reservations : List ReservationRecord
  rooms : List RoomRecord
  bills : List BillRecord
  payments : List PaymentRecord
  taxes : Option TaxConfig
  nextId : Nat
  time : Nat
deriving DecidableEq, Repr

/-- Fresh id produced by the `nanoid` model: the string of `n + 1`
tildes.  `nanoid`'s alphabet never produces such strings, so generated
ids are distinguishable from caller-supplied ones. -/
def genId (n : Nat) : String :=
  String.mk (List.replicate (n + 1) '~')

/-- Error thrown by `jsonTable.update`/`delete` when the id is absent and
by `insert` on an id collision; surfaced as a 500-class store failure. -/
def storeError : HttpError := ⟨500, "json table store failure"⟩

/-- Replace every record matched by `p` with `r'` (the store holds at
most one record per id, so this is the single-record overwrite of
`jsonTable.update`). -/
def replaceBy {α : Type} (p : α → Bool) (r' : α) (l : List α) : List α :=
  l.map (fun x => if p x then r' else x)

/-- Partial update payload for a reservation: `none` = key absent from
the update object.  (`jsonTable.update` spreads the update over the
stored record; at every modelled call site a key present with value
`undefined` can only carry the stored record's own value, so "absent"
and "present-`undefined`" coincide.) -/
structure ReservationUpdate where
  hotelId : Option String := none
  hotelCode : Option String := none
  guestId : Option String := none
  roomId : Option String := none
  roomType : Option String := none
  status : Option ReservationStatus := none
  arrivalDate : Option Int := none
  departureDate : Option Int := none
  adults : Option Nat := none
  children : Option Nat := none
  nightlyRate : Option ℚ := none
  ratePlan : Option RatePlanCode := none
  source : Option ReservationSource := none
  otaReference : Option String := none
  isWalkIn : Option Bool := none
  notes : Option String := none
  billing : Option ReservationBilling := none
  checkInAt : Option Nat := none
  checkOutAt : Option Nat := none
  createdAt : Option Nat := none
  updatedAt : Option Nat := none
deriving DecidableEq, Repr

/-- `{ ...existing, ...updates, id }` of `jsonTable.update` for
reservations. -/
def applyReservationUpdate (r : ReservationRecord) (u : ReservationUpdate) :
    ReservationRecord :=
  { id := r.id
    hotelId := u.hotelId.getD r.hotelId
    hotelCode := u.hotelCode.getD r.hotelCode
    guestId := u.guestId.getD r.guestId
    roomId := u.roomId.orElse (fun _ => r.roomId)
    roomType := u.roomType.getD r.roomType
    status := u.status.getD r.status
    arrivalDate := u.arrivalDate.getD r.arrivalDate
    departureDate := u.departureDate.getD r.departureDate
    adults := u.adults.getD r.adults
    children := u.children.getD r.children
    nightlyRate := u.nightlyRate.getD r.nightlyRate
    ratePlan := u.ratePlan.getD r.ratePlan
    source := u.source.getD r.source
    otaReference := u.otaReference.orElse (fun _ => r.otaReference)
    isWalkIn := u.isWalkIn.getD r.isWalkIn
    notes := u.notes.orElse (fun _ => r.notes)
    billing := u.billing.getD r.billing
    checkInAt := u.checkInAt.orElse (fun _ => r.checkInAt)
    checkOutAt := u.checkOutAt.orElse (fun _ => r.checkOutAt)
    createdAt := u.createdAt.getD r.createdAt
    updatedAt := u.updatedAt.getD r.updatedAt }

/-- The update payload `{ ...previousReservation }` used by the
compensating writes of `checkIn`/`checkOut`: a JSON clone carries exactly
the keys whose value is not `undefined`. -/
def snapshotUpdate (r : ReservationRecord) : ReservationUpdate :=
  { hotelId := some r.hotelId
    hotelCode := some r.hotelCode
    guestId := some r.guestId
    roomId := r.roomId
    roomType := some r.roomType
    status := some r.status
    arrivalDate := some r.arrivalDate
    departureDate := some r.departureDate
    adults := some r.adults
    children := some r.children
    nightlyRate := some r.nightlyRate
    ratePlan := some r.ratePlan
    source := some r.source
    otaReference := r.otaReference
    isWalkIn := some r.isWalkIn
    notes := r.notes
    billing := some r.billing
    checkInAt := r.checkInAt
    checkOutAt := r.checkOutAt
    createdAt := some r.createdAt
    updatedAt := some r.updatedAt }

/-- `reservationsTable.update`: find by id, merge, overwrite; throws when
the id is absent. -/
def updateReservationsTable (l : List ReservationRecord) (id : String)
    (u : ReservationUpdate) :
    Except HttpError (ReservationRecord × List ReservationRecord) :=
  match l.find? (fun r => r.id == id) with
  | none => .error storeError
  | some existing =>
    let updated := applyReservationUpdate existing u
    .ok (updated, replaceBy (fun r => r.id == id) updated l)

/-- Partial update payload for a room; the modelled call sites
(`checkIn`/`checkOut`) only write `status` and `updatedAt`. -/
structure RoomUpdate where
  status : Option RoomStatus := none
  updatedAt : Option Nat := none
deriving DecidableEq, Repr

/-- `{ ...existing, ...updates, id }` of `jsonTable.update` for rooms. -/
def applyRoomUpdate (r : RoomRecord) (u : RoomUpdate) : RoomRecord :=
  { r with
    status := u.status.getD r.status
    updatedAt := u.updatedAt.getD r.updatedAt }

/-- `roomsTable.update`. -/
def updateRoomsTable (l : List RoomRecord) (id : String) (u : RoomUpdate) :
    Except HttpError (RoomRecord × List RoomRecord) :=
  match l.find? (fun r => r.id == id) with
  | none => .error storeError
  | some existing =>
    let updated := applyRoomUpdate existing u
    .ok (updated, replaceBy (fun r => r.id == id) updated l)

/-- Partial update payload for a bill; the modelled call sites write
`folios`, `charges` and `updatedAt`. -/
structure BillUpdate where
  folios : Option (List Folio) := none
  charges : Option (List ChargeRecord) := none
  updatedAt : Option Nat := none
deriving DecidableEq, Repr

/-- `{ ...existing, ...updates, id }` of `jsonTable.update` for bills. -/
def applyBillUpdate (b : BillRecord) (u : BillUpdate) : BillRecord :=
  { b with
    folios := u.folios.getD b.folios
    charges := u.charges.getD b.charges
    updatedAt := u.updatedAt.getD b.updatedAt }

/-- `billsTable.update`. -/
def updateBillsTable (l : List BillRecord) (id : String) (u : BillUpdate) :
    Except HttpError (BillRecord × List BillRecord) :=
  match l.find? (fun b => b.id == id) with
  | none => .error storeError
  | some existing =>
    let updated := applyBillUpdate existing u
    .ok (updated, replaceBy (fun b => b.id == id) updated l)

/-- `billsTable.insert`: reject an id collision, else append. -/
def insertBill (l : List BillRecord) (b : BillRecord) :
    Except HttpError (List BillRecord) :=
  if l.any (fun x => x.id == b.id) then .error storeError else .ok (l ++ [b])

/-- `paymentsTable.insert`: reject an id collision, else append. -/
def insertPayment (l : List PaymentRecord) (p : PaymentRecord) :
    Except HttpError (List PaymentRecord) :=
  if l.any (fun x => x.id == p.id) then .error storeError else .ok (l ++ [p])

/-- `reservationsTable.delete`: remove by id, throwing when absent. -/
def deleteFromReservationsTable (l : List ReservationRecord) (id : String) :
    Except HttpError (List ReservationRecord) :=
  if l.any (fun r => r.id == id) then
    .ok (l.filter (fun r => !(r.id == id)))
  else .error storeError

/-! ### Reservation lifecycle operations (`reservationService`,
part_017's operations service, `propertyService`) -/

/-- Delete operation (`deleteReservation` in `reservationService`):
404 when absent, a state error while the stay is in progress or done,
otherwise remove the record. -/
def deleteReservation (st : Db) (id : String) : Db × Except HttpError Unit :=
  match st.reservations.find? (fun r => r.id == id) with
  | none => (st, .error ⟨404, "Reservation not found"⟩)
  | some existing =>
    if existing.status == .CHECKED_IN || existing.status == .CHECKED_OUT then
      (st, .error ⟨400, "Cannot delete reservation during or after stay"⟩)
    else
      match deleteFromReservationsTable st.reservations id with
      | .error e => (st, .error e)
      | .ok rs => ({ st with reservations := rs }, .ok ())

/-- Room status sub-machine table (`ROOM_STATUS_TRANSITIONS` in
`propertyService`). -/
def ROOM_STATUS_TRANSITIONS : RoomStatus → List RoomStatus
  | .AVAILABLE => [.OCCUPIED, .DIRTY, .OUT_OF_ORDER]
  | .OCCUPIED => [.DIRTY]
  | .DIRTY => [.AVAILABLE, .OUT_OF_ORDER]
  | .OUT_OF_ORDER => [.AVAILABLE, .DIRTY]

/-- Printable room status name, for the interpolated error message. -/
def roomStatusName : RoomStatus → String
  | .AVAILABLE => "AVAILABLE"
  | .OCCUPIED => "OCCUPIED"
  | .DIRTY => "DIRTY"
  | .OUT_OF_ORDER => "OUT_OF_ORDER"

/-- Transition guard (`assertValidRoomStatusTransition` in
`propertyService`): a no-op when the status does not change, otherwise
the next status must be in the table. -/
def assertValidRoomStatusTransition (current next : RoomStatus) :
    Except HttpError Unit :=
  if current == next then .ok ()
  else if (ROOM_STATUS_TRANSITIONS current).contains next then .ok ()
  else .error ⟨400, "Cannot transition room status from " ++
    roomStatusName current ++ " to " ++ roomStatusName next⟩

/-- `ensureRoomBelongsToHotel` in `reservationService`. -/
def ensureRoomBelongsToHotel (room : Option RoomRecord) (hotelCode : String) :
    Except HttpError Unit :=
  match room with
  | none => .error ⟨400, "Room does not belong to this property"⟩
  | some r =>
    if r.hotelCode != hotelCode then
      .error ⟨400, "Room does not belong to this property"⟩
    else .ok ()

/-- Check-in operation (`checkIn` in the front-desk operations service).
`roomWriteError` injects the possible failure of the room-status write
(`roomsTable.update` throwing at the I/O layer); on that failure the
source performs the compensating reservation write and re-raises the
error. -/
def checkIn (st : Db) (reservationId : String) (inputRoomId : Option String)
    (roomWriteError : Option HttpError) :
    Db × Except HttpError ReservationRecord :=
  match st.reservations.find? (fun r => r.id == reservationId) with
  | none => (st, .error ⟨404, "Reservation not found"⟩)
  | some reservation =>
    if !([ReservationStatus.CONFIRMED, .DRAFT].contains reservation.status) then
      (st, .error ⟨400, "Reservation cannot be checked in from current status"⟩)
    else
      match truthyOpt (inputRoomId.orElse (fun _ => reservation.roomId)) with
      | none => (st, .error ⟨400, "Room assignment is required for check-in"⟩)
      | some roomId =>
        match st.rooms.find? (fun r => r.id == roomId) with
        | none => (st, .error ⟨404, "Room not found"⟩)
        | some room =>
          match ensureRoomBelongsToHotel (some room) reservation.hotelCode with
          | .error e => (st, .error e)
          | .ok () =>
            match ensureRoomAvailable st.reservations room.id
                reservation.arrivalDate reservation.departureDate
                (some reservation.id) with
            | .error e => (st, .error e)
            | .ok () =>
              let timestamp := st.time
              let previousReservation := reservation
              match updateReservationsTable st.reservations reservation.id
                  { status := some .CHECKED_IN
                    roomId := some room.id
                    roomType := some room.type
                    checkInAt := some timestamp
                    updatedAt := some timestamp } with
              | .error e => (st, .error e)
              | .ok (_, rs1) =>
                let st1 := { st with reservations := rs1 }
                match roomWriteError with
                | none =>
                  match updateRoomsTable st1.rooms room.id
                      { status := some .OCCUPIED, updatedAt := some timestamp } with
                  | .error e => (st1, .error e)
                  | .ok (_, rooms1) =>
                    let st2 := { st1 with rooms := rooms1 }
                    match st2.reservations.find? (fun r => r.id == reservation.id) with
                    | none => (st2, .error ⟨500, "Unable to load updated reservation"⟩)
                    | some payload => (st2, .ok payload)
                | some e =>
                  match updateReservationsTable st1.reservations reservation.id
                      (snapshotUpdate previousReservation) with
                  | .error e2 => (st1, .error e2)
                  | .ok (_, rs2) => ({ st1 with reservations := rs2 }, .error e)

/-- Check-out operation (`checkOut` in the front-desk operations
service), with the same injected room-write failure as `checkIn`. -/
def checkOut (st : Db) (reservationId : String)
    (options : SettlementOptions) (roomWriteError : Option HttpError) :
    Db × Except HttpError (ReservationRecord × SettlementResult × Int) :=
  match st.reservations.find? (fun r => r.id == reservationId) with
  | none => (st, .error ⟨404, "Reservation not found"⟩)
  | some reservation =>
    if reservation.status != .CHECKED_IN then
      (st, .error ⟨400, "Reservation is not currently checked in"⟩)
    else if !(strTruthy reservation.roomId) then
      (st, .error ⟨400, "Reservation does not have an assigned room"⟩)
    else
      match reservation.roomId with
      | none => (st, .error ⟨400, "Reservation does not have an assigned room"⟩)
      | some roomId =>
        match st.rooms.find? (fun r => r.id == roomId) with
        | none => (st, .error ⟨404, "Room not found"⟩)
        | some room =>
          match nightsBetween reservation.arrivalDate reservation.departureDate with
          | .error e => (st, .error e)
          | .ok nights =>
            let settlement := settleReservation reservation options
            let timestamp := st.time
            let previousReservation := reservation
            match updateReservationsTable st.reservations reservation.id
                { status := some .CHECKED_OUT
                  checkOutAt := some timestamp
                  billing := some settlement.billing
                  updatedAt := some timestamp } with
            | .error e => (st, .error e)
            | .ok (_, rs1) =>
              let st1 := { st with reservations := rs1 }
              match roomWriteError with
              | none =>
                match updateRoomsTable st1.rooms room.id
                    { status := some .DIRTY, updatedAt := some timestamp } with
                | .error e => (st1, .error e)
                | .ok (_, rooms1) =>
                  let st2 := { st1 with rooms := rooms1 }
                  match st2.reservations.find? (fun r => r.id == reservation.id) with
                  | none => (st2, .error ⟨500, "Unable to load updated reservation"⟩)
                  | some payload => (st2, .ok (payload, settlement, nights))
              | some e =>
                match updateReservationsTable st1.reservations reservation.id
                    (snapshotUpdate previousReservation) with
                | .error e2 => (st1, .error e2)
                | .ok (_, rs2) => ({ st1 with reservations := rs2 }, .error e)

/-- `normalizeRatePlan`: reject values outside the enumeration (vacuous
in the typed embedding, kept for faithfulness). -/
def normalizeRatePlan (value : RatePlanCode) : Except HttpError RatePlanCode :=
  if [RatePlanCode.BAR, .CORPORATE, .PACKAGE].contains value then .ok value
  else .error ⟨400, "Invalid rate plan"⟩

/-- `normalizeSource`: reject values outside the enumeration (vacuous in
the typed embedding, kept for faithfulness). -/
def normalizeSource (value : ReservationSource) :
    Except HttpError ReservationSource :=
  if [ReservationSource.DIRECT, .OTA, .CORPORATE, .WALK_IN].contains value then
    .ok value
  else .error ⟨400, "Invalid reservation source"⟩

/-- `ensureAvailabilityForType` in `reservationService`: at least one
room of the type at the hotel must pass `ensureRoomAvailable`; 400 when
no room of the type exists, 409 when all conflict. -/
def ensureAvailabilityForType (rooms : List RoomRecord)
    (reservations : List ReservationRecord) (hotelCode roomType : String)
    (arrivalDate departureDate : Int) (reservationIdToIgnore : Option String) :
    Except HttpError Unit :=
  let relevantRooms := rooms.filter
    (fun room => room.hotelCode == hotelCode && room.type == roomType)
  if relevantRooms.isEmpty then
    .error ⟨400, "No rooms available for the specified type"⟩
  else if relevantRooms.any (fun room =>
      !(isError (ensureRoomAvailable reservations room.id arrivalDate
        departureDate reservationIdToIgnore))) then
    .ok ()
  else .error ⟨409, "No availability for the requested room type and dates"⟩

/-- Partial input of the generic update operation
(`UpdateReservationInput`). -/
structure UpdateReservationInput where
  roomId : Option String := none
  roomType : Option String := none
  status : Option ReservationStatus := none
  arrivalDate : Option Int := none
  departureDate : Option Int := none
  adults : Option Nat := none
  children : Option Nat := none
  nightlyRate : Option ℚ := none
  ratePlan : Option RatePlanCode := none
  source : Option ReservationSource := none
  otaReference : Option String := none
  isWalkIn : Option Bool := none
  notes : Option String := none
  currency : Option String := none
deriving DecidableEq, Repr

/-- Generic update operation (`updateReservation` in
`reservationService`): refuses checked-out reservations, re-validates
dates and availability, rebuilds the billing snapshot from scratch with
`computeBilling`, and stamps `checkInAt`/`checkOutAt` on a status move
when not already set. -/
def updateReservation (st : Db) (id : String) (input : UpdateReservationInput) :
    Db × Except HttpError ReservationRecord :=
  match st.reservations.find? (fun r => r.id == id) with
  | none => (st, .error ⟨404, "Reservation not found"⟩)
  | some existing =>
    if existing.status == .CHECKED_OUT then
      (st, .error ⟨400, "Cannot modify a checked-out reservation"⟩)
    else
      let arrivalDate := input.arrivalDate.getD existing.arrivalDate
      let departureDate := input.departureDate.getD existing.departureDate
      match nightsBetween arrivalDate departureDate with
      | .error e => (st, .error e)
      | .ok nights =>
        let roomIdResolved := input.roomId.orElse (fun _ => existing.roomId)
        let roomTypeResolved := input.roomType.getD existing.roomType
        let availability : Except HttpError String :=
          match truthyOpt roomIdResolved with
          | some rid =>
            let room := st.rooms.find? (fun r => r.id == rid)
            match ensureRoomBelongsToHotel room existing.hotelCode with
            | .error e => .error e
            | .ok () =>
              if (match truthyOpt input.roomType, room with
                  | some rt, some rm => rm.type != rt
                  | _, _ => false) then
                .error ⟨400, "Room type does not match selected room"⟩
              else
                match ensureRoomAvailable st.reservations rid arrivalDate
                    departureDate (some existing.id) with
                | .error e => .error e
                | .ok () =>
                  .ok (match room with
                       | some rm => rm.type
                       | none => roomTypeResolved)
          | none =>
            match ensureAvailabilityForType st.rooms st.reservations
                existing.hotelCode roomTypeResolved arrivalDate departureDate
                (some existing.id) with
            | .error e => .error e
            | .ok () => .ok roomTypeResolved
        match availability with
        | .error e => (st, .error e)
        | .ok roomType =>
          match (match input.ratePlan with
                 | some v => normalizeRatePlan v
                 | none => .ok existing.ratePlan) with
          | .error e => (st, .error e)
          | .ok ratePlan =>
            match (match input.source with
                   | some v => normalizeSource v
                   | none => .ok existing.source) with
            | .error e => (st, .error e)
            | .ok source =>
              let updates : ReservationUpdate :=
                { roomId := roomIdResolved
                  roomType := some roomType
                  status := some (input.status.getD existing.status)
                  arrivalDate := some arrivalDate
                  departureDate := some departureDate
                  adults := some (input.adults.getD existing.adults)
                  children := some (input.children.getD existing.children)
                  nightlyRate := some (input.nightlyRate.getD existing.nightlyRate)
                  ratePlan := some ratePlan
                  source := some source
                  otaReference := input.otaReference.orElse
                    (fun _ => existing.otaReference)
                  isWalkIn := some (input.isWalkIn.getD existing.isWalkIn)
                  notes := input.notes.orElse (fun _ => existing.notes)
                  billing := some (computeBilling
                    (input.nightlyRate.getD existing.nightlyRate) nights
                    (input.currency.getD existing.billing.currency))
                  updatedAt := some st.time
                  checkInAt :=
                    if input.status == some .CHECKED_IN
                        && existing.checkInAt.isNone then
                      some st.time
                    else none
                  checkOutAt :=
                    if input.status == some .CHECKED_OUT
                        && existing.checkOutAt.isNone then
                      some st.time
                    else none }
              match updateReservationsTable st.reservations id updates with
              | .error e => (st, .error e)
              | .ok (updated, rs1) =>
                ({ st with reservations := rs1 }, .ok updated)

/-! ### Folio and charge ledger (`billingService`) -/

/-- Default folio name (`DEFAULT_FOLIO_NAME`). -/
def DEFAULT_FOLIO_NAME : String := "Primary"

/-- `toISODate`: the source re-parses and re-formats a date string,
which is the identity on the calendar-day embedding. -/
def toISODate (value : Int) : Int := value

/-- `enumerateStayNights`: every calendar night in
`[arrival, departure)`, empty unless `arrival < departure`. -/
def enumerateStayNights (arrival departure : Int) : List Int :=
  if arrival < departure then
    (List.range (departure - arrival).toNat).map (fun i => arrival + i)
  else []

/-- `calculateTax`: CGST+SGST percentage on the amount (0 with no tax
config), each rounded to currency precision.  Returns
`(taxAmount, totalAmount, gstPercent)`. -/
def calculateTax (taxes : Option TaxConfig) (amount : ℚ) : ℚ × ℚ × ℚ :=
  let gstPercent := match taxes with
    | some t => t.cgst + t.sgst
    | none => 0
  let taxAmount := roundCurrency (amount * (gstPercent / 100))
  let totalAmount := roundCurrency (amount + taxAmount)
  (taxAmount, totalAmount, gstPercent)

/-- `ensureDefaultFolio` builds the default folio record. -/
def ensureDefaultFolio (id : String) (timestamp : Nat) : Folio :=
  { id := id, name := DEFAULT_FOLIO_NAME
    createdAt := timestamp, updatedAt := timestamp }

/-- `ensureBillForReservation`: the first bill with the reservation's id,
created lazily (one default folio, no charges) when absent.  Creation
consumes two generated ids (folio, then the bill's own id from
`insert`). -/
def ensureBillForReservation (st : Db) (reservation : ReservationRecord) :
    Db × Except HttpError BillRecord :=
  match st.bills.find? (fun b => b.reservationId == reservation.id) with
  | some existing => (st, .ok existing)
  | none =>
    let timestamp := st.time
    let record : BillRecord :=
      { id := genId (st.nextId + 1)
        hotelId := reservation.hotelId
        hotelCode := reservation.hotelCode
        reservationId := reservation.id
        folios := [ensureDefaultFolio (genId st.nextId) timestamp]
        charges := []
        createdAt := timestamp
        updatedAt := timestamp }
    match insertBill st.bills record with
    | .error e => (st, .error e)
    | .ok bills1 =>
      ({ st with bills := bills1, nextId := st.nextId + 2 }, .ok record)

/-- `resolveFolio`: by id (404 when absent), else by case-insensitive
name (created when absent), else the first folio (created when the bill
has none). -/
def resolveFolio (st : Db) (bill : BillRecord)
    (folioId folioName : Option String) :
    Db × Except HttpError (BillRecord × String) :=
  match truthyOpt folioId with
  | some fid =>
    match bill.folios.find? (fun f => f.id == fid) with
    | none => (st, .error ⟨404, "Folio not found"⟩)
    | some _ => (st, .ok (bill, fid))
  | none =>
    match truthyOpt folioName with
    | some fname =>
      match bill.folios.find? (fun f => f.name.toLower == fname.toLower) with
      | some m => (st, .ok (bill, m.id))
      | none =>
        let timestamp := st.time
        let newFolio : Folio :=
          { id := genId st.nextId, name := fname
            createdAt := timestamp, updatedAt := timestamp }
        match updateBillsTable st.bills bill.id
            { folios := some (bill.folios ++ [newFolio])
              updatedAt := some timestamp } with
        | .error e => (st, .error e)
        | .ok (updated, bills1) =>
          ({ st with bills := bills1, nextId := st.nextId + 1 },
            .ok (updated, newFolio.id))
    | none =>
      match bill.folios.head? with
      | some defaultFolio => (st, .ok (bill, defaultFolio.id))
      | none =>
        let timestamp := st.time
        let newFolio := ensureDefaultFolio (genId st.nextId) timestamp
        match updateBillsTable st.bills bill.id
            { folios := some [newFolio], updatedAt := some timestamp } with
        | .error e => (st, .error e)
        | .ok (updated, bills1) =>
          ({ st with bills := bills1, nextId := st.nextId + 1 },
            .ok (updated, newFolio.id))

/-- `getPaymentsForReservation`. -/
def getPaymentsForReservation (st : Db) (reservationId : String) :
    List PaymentRecord :=
  st.payments.filter (fun p => p.reservationId == reservationId)

/-- `computeTotals`: rounded reductions of the bill's charges and the
reservation's payments. -/
def computeTotals (bill : BillRecord) (payments : List PaymentRecord) :
    BillTotals :=
  let subTotal := roundCurrency (bill.charges.foldl (fun sum c => sum + c.amount) 0)
  let taxTotal := roundCurrency (bill.charges.foldl (fun sum c => sum + c.taxAmount) 0)
  let grandTotal := roundCurrency (bill.charges.foldl (fun sum c => sum + c.totalAmount) 0)
  let paymentsTotal := roundCurrency (payments.foldl (fun sum p => sum + p.amount) 0)
  let balanceDue := roundCurrency (grandTotal - paymentsTotal)
  { subTotal := subTotal, taxTotal := taxTotal, grandTotal := grandTotal
    paymentsTotal := paymentsTotal, balanceDue := balanceDue }

/-- Read-only bill summary (`toBillSummary`). -/
structure BillSummary where
  bill : BillRecord
  payments : List PaymentRecord
  totals : BillTotals
deriving DecidableEq, Repr

/-- `toBillSummary`. -/
def toBillSummary (st : Db) (bill : BillRecord)
    (reservation : ReservationRecord) : BillSummary :=
  let payments := getPaymentsForReservation st reservation.id
  { bill := bill, payments := payments, totals := computeTotals bill payments }

/-- `syncReservationBilling`: recompute the totals from the bill plus the
reservation's payments and write them into the reservation's embedded
billing snapshot.  (`reservation.billing?.currency ?? DEFAULT_CURRENCY`:
`billing` is always present in the embedding, so the fallback is
unreachable.) -/
def syncReservationBilling (st : Db) (reservation : ReservationRecord)
    (bill : BillRecord) : Db × Except HttpError BillTotals :=
  let payments := getPaymentsForReservation st reservation.id
  let totals := computeTotals bill payments
  let currency := reservation.billing.currency
  match updateReservationsTable st.reservations reservation.id
      { billing := some
          { currency := currency
            totalAmount := totals.grandTotal
            balanceDue := totals.balanceDue
            charges := bill.charges.map (fun c =>
              { description := c.description, amount := c.totalAmount }) } } with
  | .error e => (st, .error e)
  | .ok (_, rs1) => ({ st with reservations := rs1 }, .ok totals)

/-- `ensureDatesWithinStay`: every requested night must be a stay
night. -/
def ensureDatesWithinStay (nights stayNights : List Int) :
    Except HttpError Unit :=
  match nights.find? (fun night => !(stayNights.contains night)) with
  | some night =>
    .error ⟨400, "Night " ++ Int.repr night ++ " is outside the reservation stay"⟩
  | none => .ok ()

/-- `hasRoomChargeForDate`: a ROOM charge whose `metadata.nightDate` is
the given night. -/
def hasRoomChargeForDate (bill : BillRecord) (date : Int) : Bool :=
  bill.charges.any (fun charge =>
    charge.metadata.nightDate == some date && charge.type == ChargeType.ROOM)

/-- The charge-building loop of `postRoomCharges`: one new ROOM charge
per target night that has none on the (folio-resolved) bill; the second
component is the advanced id counter.  The tax computation is hoisted out
of the loop: it is pure and its inputs do not change between
iterations. -/
def roomChargesLoop (bill : BillRecord) (folioId : String)
    (baseAmount taxAmount totalAmount gstPercent : ℚ) (timestamp : Nat) :
    List Int → Nat → List ChargeRecord × Nat
  | [], n => ([], n)
  | night :: rest, n =>
    if hasRoomChargeForDate bill night then
      roomChargesLoop bill folioId baseAmount taxAmount totalAmount gstPercent
        timestamp rest n
    else
      let c : ChargeRecord :=
        { id := genId n
          folioId := folioId
          type := .ROOM
          description := "Room charge for " ++ Int.repr night
          amount := baseAmount
          taxAmount := taxAmount
          totalAmount := totalAmount
          postedAt := timestamp
          metadata := { nightDate := some night, rate := some baseAmount
                        gstPercent := some gstPercent } }
      let rec1 := roomChargesLoop bill folioId baseAmount taxAmount totalAmount
        gstPercent timestamp rest (n + 1)
      (c :: rec1.1, rec1.2)

/-- Input of `postRoomCharges` (`RoomChargeInput`). -/
structure RoomChargeInput where
  reservationId : String
  dates : Option (List Int) := none
  folioId : Option String := none
  folioName : Option String := none
  nightlyRate : Option ℚ := none
deriving DecidableEq, Repr

/-- Result of `postRoomCharges`; on the all-nights-already-charged path
the source returns a summary without the `addedCharges` key, modelled as
the empty list. -/
structure RoomChargesResult where
  bill : BillRecord
  payments : List PaymentRecord
  totals : BillTotals
  addedCharges : List ChargeRecord
deriving DecidableEq, Repr

/-- The target-night selection of `postRoomCharges`: the requested dates
when a non-empty list is given, else the whole stay. -/
def targetNightsOf (dates : Option (List Int)) (stayNights : List Int) :
    List Int :=
  match dates with
  | some ds => if ds.isEmpty then stayNights else ds.map toISODate
  | none => stayNights

/-- `postRoomCharges`: post one ROOM charge per uncharged night of the
requested subset (default: the whole stay), then synchronise the
reservation's billing snapshot. -/
def postRoomCharges (st : Db) (input : RoomChargeInput) :
    Db × Except HttpError RoomChargesResult :=
  match st.reservations.find? (fun r => r.id == input.reservationId) with
  | none => (st, .error ⟨404, "Reservation not found"⟩)
  | some reservation =>
    match ensureBillForReservation st reservation with
    | (st1, .error e) => (st1, .error e)
    | (st1, .ok bill) =>
      let stayNights := enumerateStayNights reservation.arrivalDate
        reservation.departureDate
      if stayNights.isEmpty then
        (st1, .error ⟨400, "Reservation does not span an overnight stay"⟩)
      else
        let targetNights := targetNightsOf input.dates stayNights
        match ensureDatesWithinStay targetNights stayNights with
        | .error e => (st1, .error e)
        | .ok () =>
          match resolveFolio st1 bill input.folioId input.folioName with
          | (st2, .error e) => (st2, .error e)
          | (st2, .ok (resolvedBill, folioId)) =>
            let baseAmount := input.nightlyRate.getD reservation.nightlyRate
            let tax := calculateTax st2.taxes baseAmount
            let loopOut := roomChargesLoop resolvedBill folioId baseAmount
              tax.1 tax.2.1 tax.2.2 st2.time targetNights st2.nextId
            if loopOut.1.isEmpty then
              let summary := toBillSummary st2 resolvedBill reservation
              (st2, .ok { bill := summary.bill, payments := summary.payments
                          totals := summary.totals, addedCharges := [] })
            else
              match updateBillsTable st2.bills resolvedBill.id
                  { charges := some (resolvedBill.charges ++ loopOut.1)
                    updatedAt := some st2.time } with
              | .error e => (st2, .error e)
              | .ok (updated, bills1) =>
                let st3 := { st2 with bills := bills1, nextId := loopOut.2 }
                match syncReservationBilling st3 reservation updated with
                | (st4, .error e) => (st4, .error e)
                | (st4, .ok totals) =>
                  (st4, .ok { bill := updated
                              payments := getPaymentsForReservation st4 reservation.id
                              totals := totals
                              addedCharges := loopOut.1 })

/-- Merge of the caller-supplied free-form metadata over the computed
`{ quantity, gstPercent }` (`{ quantity, gstPercent, ...metadata }`). -/
def mergeMetadata (base extra : ChargeMetadata) : ChargeMetadata :=
  { nightDate := extra.nightDate.orElse (fun _ => base.nightDate)
    rate := extra.rate.orElse (fun _ => base.rate)
    gstPercent := extra.gstPercent.orElse (fun _ => base.gstPercent)
    quantity := extra.quantity.orElse (fun _ => base.quantity) }

/-- Input of `addAddonCharge` (`AddonChargeInput`). -/
structure AddonChargeInput where
  reservationId : String
  description : String
  amount : ℚ
  quantity : Option ℚ := none
  folioId : Option String := none
  folioName : Option String := none
  metadata : ChargeMetadata := {}
deriving DecidableEq, Repr

/-- Result of `addAddonCharge`. -/
structure AddonChargeResult where
  bill : BillRecord
  payments : List PaymentRecord
  totals : BillTotals
  addedCharge : ChargeRecord
deriving DecidableEq, Repr

/-- `addAddonCharge`: reject non-positive amounts, multiply by the
(positive) quantity, tax and append one ADDON charge, then
synchronise. -/
def addAddonCharge (st : Db) (input : AddonChargeInput) :
    Db × Except HttpError AddonChargeResult :=
  if input.amount ≤ 0 then
    (st, .error ⟨400, "Amount must be greater than zero"⟩)
  else
    match st.reservations.find? (fun r => r.id == input.reservationId) with
    | none => (st, .error ⟨404, "Reservation not found"⟩)
    | some reservation =>
      match ensureBillForReservation st reservation with
      | (st1, .error e) => (st1, .error e)
      | (st1, .ok bill) =>
        match resolveFolio st1 bill input.folioId input.folioName with
        | (st2, .error e) => (st2, .error e)
        | (st2, .ok (resolvedBill, folioId)) =>
          let quantity := match input.quantity with
            | some q => if 0 < q then q else 1
            | none => 1
          let baseAmount := input.amount * quantity
          let tax := calculateTax st2.taxes baseAmount
          let charge : ChargeRecord :=
            { id := genId st2.nextId
              folioId := folioId
              type := .ADDON
              description := input.description
              amount := baseAmount
              taxAmount := tax.1
              totalAmount := tax.2.1
              postedAt := st2.time
              metadata := mergeMetadata
                { quantity := some quantity, gstPercent := some tax.2.2 }
                input.metadata }
          match updateBillsTable st2.bills resolvedBill.id
              { charges := some (resolvedBill.charges ++ [charge])
                updatedAt := some st2.time } with
          | .error e => (st2, .error e)
          | .ok (updated, bills1) =>
            let st3 := { st2 with bills := bills1, nextId := st2.nextId + 1 }
            match syncReservationBilling st3 reservation updated with
            | (st4, .error e) => (st4, .error e)
            | (st4, .ok totals) =>
              (st4, .ok { bill := updated
                          payments := getPaymentsForReservation st4 reservation.id
                          totals := totals
                          addedCharge := charge })

/-- One payment of a `settleBill` call (`SettlementPaymentInput`). -/
structure SettlementPaymentInput where
  amount : ℚ
  mode : PaymentMode
  reference : Option String := none
  folioId : Option String := none
  folioName : Option String := none
  currency : Option String := none
deriving DecidableEq, Repr

/-- Input of `settleBill` (`SettleBillInput`). -/
structure SettleBillInput where
  reservationId : String
  payments : List SettlementPaymentInput
deriving DecidableEq, Repr

/-- Result of `settleBill`. -/
structure SettleBillResult where
  bill : BillRecord
  payments : List PaymentRecord
  totals : BillTotals
  newPayments : List PaymentRecord
deriving DecidableEq, Repr

/-- The `for (const payment of input.payments)` loop of `settleBill`:
validate, resolve the folio, insert the Payment record; the first
non-positive amount aborts with the validation error, leaving the
records already inserted in place. -/
def settleLoop (reservation : ReservationRecord) :
    Db → BillRecord → List PaymentRecord → List SettlementPaymentInput →
    Db × Except HttpError (BillRecord × List PaymentRecord)
  | st, currentBill, acc, [] => (st, .ok (currentBill, acc))
  | st, currentBill, acc, payment :: rest =>
    if payment.amount ≤ 0 then
      (st, .error ⟨400, "Payment amount must be greater than zero"⟩)
    else
      match resolveFolio st currentBill payment.folioId payment.folioName with
      | (st1, .error e) => (st1, .error e)
      | (st1, .ok (resolvedBill, folioId)) =>
        let record : PaymentRecord :=
          { id := genId st1.nextId
            hotelId := reservation.hotelId
            hotelCode := reservation.hotelCode
            reservationId := reservation.id
            folioId := folioId
            amount := roundCurrency payment.amount
            currency := payment.currency.getD reservation.billing.currency
            mode := payment.mode
            reference := payment.reference
            receivedAt := st1.time
            createdAt := st1.time
            updatedAt := st1.time }
        match insertPayment st1.payments record with
        | .error e => (st1, .error e)
        | .ok payments1 =>
          settleLoop reservation
            { st1 with payments := payments1, nextId := st1.nextId + 1 }
            resolvedBill (acc ++ [record]) rest

/-- `settleBill`: reject an empty payment list, insert every payment in
order, then synchronise the reservation's billing snapshot. -/
def settleBill (st : Db) (input : SettleBillInput) :
    Db × Except HttpError SettleBillResult :=
  if input.payments.isEmpty then
    (st, .error ⟨400, "No payments provided"⟩)
  else
    match st.reservations.find? (fun r => r.id == input.reservationId) with
    | none => (st, .error ⟨404, "Reservation not found"⟩)
    | some reservation =>
      match ensureBillForReservation st reservation with
      | (st1, .error e) => (st1, .error e)
      | (st1, .ok bill) =>
        match settleLoop reservation st1 bill [] input.payments with
        | (st2, .error e) => (st2, .error e)
        | (st2, .ok (currentBill, createdPayments)) =>
          match syncReservationBilling st2 reservation currentBill with
          | (st3, .error e) => (st3, .error e)
          | (st3, .ok totals) =>
            (st3, .ok { bill := currentBill
                        payments := getPaymentsForReservation st3 reservation.id
                        totals := totals
                        newPayments := createdPayments })

/-! ### Freshness of generated ids and rounded amounts -/

/-- Is a string one the id supply could have produced? -/
def isGenId (s : String) : Bool :=
  decide (0 < s.length) && s.data.all (fun c => c == '~')

/-- A stored id is compatible with counter value `next`: if it is a
generated id, it was generated below `next`. -/
def goodId (next : Nat) (s : String) : Prop :=
  isGenId s = true → s.length ≤ next

/-- All bill and payment ids are compatible with the current counter, so
the next generated id cannot collide (`nanoid` ids are unique). -/
def FreshDb (st : Db) : Prop :=
  (∀ b ∈ st.bills, goodId st.nextId b.id) ∧
  (∀ p ∈ st.payments, goodId st.nextId p.id)

/-- Bill ids are pairwise distinct — the `Map`-backed store guarantees
this (duplicate inserts throw). -/
def UniqueBillIds (st : Db) : Prop :=
  (st.bills.map (fun b => b.id)).Nodup

/-- An amount is exactly representable at currency precision. -/
def IsRounded (q : ℚ) : Prop := roundCurrency q = q

/-- All charge totals on bills and all payment amounts in the store are
at currency precision (they are created that way by the ledger). -/
def WellFormedDb (st : Db) : Prop :=
  (∀ b ∈ st.bills, ∀ c ∈ b.charges, IsRounded c.totalAmount) ∧
  (∀ p ∈ st.payments, IsRounded p.amount)

/-! ### Concrete example records used by witnesses and counterexamples -/

/-- Example reservation for the availability witnesses: active, room
`"101"` assigned, staying days `[0, 3)`. -/
def resC1 : ReservationRecord :=
  { id := "r1", hotelId := "h1", hotelCode := "H", guestId := "g1"
    roomId := some "101", roomType := "DLX", status := .CONFIRMED
    arrivalDate := 0, departureDate := 3, adults := 2, children := 0
    nightlyRate := 7500, ratePlan := .BAR, source := .DIRECT
    otaReference := none, isWalkIn := false, notes := none
    billing := { currency := "INR", totalAmount := 22500
                 balanceDue := 22500, charges := [] }
    checkInAt := none, checkOutAt := none, createdAt := 0, updatedAt := 0 }

/-- Example reservation booked by room type only (`roomId` unset) while
overlapping every queried stay below; used by the C9 witness. -/
def resC9 : ReservationRecord :=
  { resC1 with id := "r9", roomId := none }

/-- Example room used by the C9 witness. -/
def roomC9 : RoomRecord :=
  { id := "101", hotelId := "h1", hotelCode := "H", number := "101"
    type := "DLX", status := .AVAILABLE, rate := 7500, updatedAt := 0 }

/-- A cancelled reservation, deletable per the code but not per the
claim. -/
def resC5 : ReservationRecord :=
  { resC1 with id := "r5", status := .CANCELLED }

/-- Store holding only the cancelled reservation `resC5`. -/
def dbC5 : Db :=
  { reservations := [resC5], rooms := [], bills := [], payments := []
    taxes := none, nextId := 0, time := 10 }

/-- Reservation whose billing snapshot was synchronised from the ledger
(charges with tax, fully paid); a no-op update will discard it. -/
def resC10 : ReservationRecord :=
  { resC1 with
    id := "r10"
    billing := { currency := "INR", totalAmount := 25200, balanceDue := 0
                 charges := [{ description := "Room charge for 0"
                               amount := 8400 }] } }

/-- Store for the C10 witness: `resC10` plus its room. -/
def dbC10 : Db :=
  { reservations := [resC10], rooms := [roomC9], bills := [], payments := []
    taxes := none, nextId := 0, time := 20 }

/-- A DIRTY room: the status table does not allow DIRTY → OCCUPIED. -/
def roomC6 : RoomRecord :=
  { roomC9 with id := "rm6", status := .DIRTY }

/-- A confirmed reservation assigned to the DIRTY room `roomC6`. -/
def resC6 : ReservationRecord :=
  { resC1 with id := "r6", roomId := some "rm6" }

/-- Store for the C6 counterexample and witness: check-in will write
OCCUPIED onto the DIRTY room. -/
def dbC6 : Db :=
  { reservations := [resC6], rooms := [roomC6], bills := [], payments := []
    taxes := none, nextId := 0, time := 30 }

/-- A DIRTY room for the check-out half of the C6 witness. -/
def roomC6b : RoomRecord :=
  { roomC9 with id := "rm6b", status := .DIRTY }

/-- A checked-in reservation on `roomC6b` with an empty billing charge
list. -/
def resC6b : ReservationRecord :=
  { resC1 with
    id := "r6b"
    roomId := some "rm6b"
    status := .CHECKED_IN
    checkInAt := some 25 }

/-- Store for the check-out half of the C6 witness. -/
def dbC6b : Db :=
  { reservations := [resC6b], rooms := [roomC6b], bills := [], payments := []
    taxes := none, nextId := 0, time := 31 }

/-- `resC6` after the successful check-in of the C6 witness. -/
def resC6p : ReservationRecord :=
  { resC6 with status := .CHECKED_IN, checkInAt := some 30, updatedAt := 30 }

/-- `roomC6` after the C6 check-in: OCCUPIED despite having been
DIRTY. -/
def roomC6p : RoomRecord :=
  { roomC6 with status := .OCCUPIED, updatedAt := 30 }

/-- Store after the C6 check-in. -/
def dbC6p : Db :=
  { dbC6 with reservations := [resC6p], rooms := [roomC6p] }

/-- Settlement computed by the C6 check-out (empty charge list). -/
def settC6b : SettlementResult :=
  { billing := { currency := "INR", totalAmount := 0, balanceDue := 0
                 charges := [] } }

/-- `resC6b` after the C6 check-out. -/
def resC6bp : ReservationRecord :=
  { resC6b with
    status := .CHECKED_OUT
    checkOutAt := some 31
    updatedAt := 31
    billing := settC6b.billing }

/-- `roomC6b` after the C6 check-out: DIRTY written unconditionally. -/
def roomC6bp : RoomRecord :=
  { roomC6b with status := .DIRTY, updatedAt := 31 }

/-- Store after the C6 check-out. -/
def dbC6bp : Db :=
  { dbC6b with reservations := [resC6bp], rooms := [roomC6bp] }

/-- The injected failure of the room-status write for C3. -/
def errC3 : HttpError := ⟨500, "room status write failed"⟩

/-- A confirmed, never-checked-in reservation (`checkInAt` absent) with a
room assigned; the C3 rollback cannot clear the `checkInAt` the aborted
transition wrote. -/
def resC3 : ReservationRecord :=
  { resC1 with id := "r3", roomId := some "rm3" }

/-- Room for the C3 counterexample. -/
def roomC3 : RoomRecord :=
  { roomC9 with id := "rm3" }

/-- Store for the C3 counterexample and witness. -/
def dbC3 : Db :=
  { reservations := [resC3], rooms := [roomC3], bills := [], payments := []
    taxes := none, nextId := 0, time := 40 }

/-- A checked-in reservation for the check-out half of the C3 witness. -/
def resC3b : ReservationRecord :=
  { resC1 with
    id := "r3b"
    roomId := some "rm3b"
    status := .CHECKED_IN
    checkInAt := some 35 }

/-- Room for the check-out half of the C3 witness. -/
def roomC3b : RoomRecord :=
  { roomC9 with id := "rm3b", status := .OCCUPIED }

/-- Store for the check-out half of the C3 witness. -/
def dbC3b : Db :=
  { reservations := [resC3b], rooms := [roomC3b], bills := [], payments := []
    taxes := none, nextId := 0, time := 41 }

/-- Reservation for the C7 settle-bill scenario. -/
def resC7 : ReservationRecord :=
  { resC1 with id := "r7" }

/-- The default folio of `billC7`. -/
def folioC7 : Folio :=
  { id := "f7", name := "Primary", createdAt := 0, updatedAt := 0 }

/-- An existing (empty) bill for `resC7`. -/
def billC7 : BillRecord :=
  { id := "b7", hotelId := "h1", hotelCode := "H", reservationId := "r7"
    folios := [folioC7], charges := [], createdAt := 0, updatedAt := 0 }

/-- Store for the C7 counterexample and witness. -/
def dbC7 : Db :=
  { reservations := [resC7], rooms := [], bills := [billC7], payments := []
    taxes := none, nextId := 0, time := 50 }

/-- A valid payment preceding the invalid one. -/
def payC7good : SettlementPaymentInput :=
  { amount := 100, mode := .CASH }

/-- The non-positive payment that fails validation. -/
def payC7bad : SettlementPaymentInput :=
  { amount := 0, mode := .CASH }

/-- The reservation stored after the no-op update of `resC10`: the
ledger-synchronised snapshot is replaced by `computeBilling 7500 3`. -/
def resC10p : ReservationRecord :=
  { resC10 with
    updatedAt := 20
    billing := { currency := "INR", totalAmount := 22500, balanceDue := 22500
                 charges := [{ description := "3 night(s) @ 7500.00 INR"
                               amount := 22500 }] } }

/-- Folio of the C4 witness bill. -/
def folioC4 : Folio :=
  { id := "f4", name := "Main", createdAt := 0, updatedAt := 0 }

/-- ROOM charge already posted for night `0` (C4 witness). -/
def chargeC4 : ChargeRecord :=
  { id := "c4", folioId := "f4", type := .ROOM
    description := "Room charge for 0", amount := 100, taxAmount := 0
    totalAmount := 100, postedAt := 0
    metadata := { nightDate := some 0, rate := some 100
                  gstPercent := some 0 } }

/-- Bill of the C4 witness: every stay night already carries its ROOM
charge. -/
def billC4 : BillRecord :=
  { id := "b4", hotelId := "h1", hotelCode := "H", reservationId := "r4"
    folios := [folioC4], charges := [chargeC4], createdAt := 0
    updatedAt := 0 }

/-- One-night reservation of the C4 witness. -/
def resC4 : ReservationRecord :=
  { resC1 with id := "r4", arrivalDate := 0, departureDate := 1 }

/-- Store of the C4 witness. -/
def dbC4 : Db :=
  { reservations := [resC4], rooms := [], bills := [billC4], payments := []
    taxes := none, nextId := 0, time := 0 }

/-- Input of the C4 witness call. -/
def inputC4 : RoomChargeInput := { reservationId := "r4" }

/-- Expected result of the C4 witness call. -/
def outC4 : RoomChargesResult :=
  { bill := billC4, payments := []
    totals := { subTotal := 100, taxTotal := 0, grandTotal := 100
                paymentsTotal := 0, balanceDue := 100 }
    addedCharges := [] }

/-! ### Theorems -/

/-- Summing a rational-valued field with `Array.prototype.reduce`-style
`foldl` equals the sum of the mapped list. -/
theorem foldl_add_eq_sum_map {α : Type} (f : α → ℚ) (l : List α) (init : ℚ) :
    l.foldl (fun sum c => sum + f c) init = init + (l.map f).sum := by
  induction l generalizing init with
  | nil => simp
  | cons x xs ih => simp [ih, add_assoc]

/-- Membership characterisation of the candidate-conflict predicate of
`ensureRoomAvailable`, for a non-empty target room id and a non-empty
excluded reservation id. -/
theorem conflictsWith_eq_true_iff (roomId : String) (a d : Int)
    (ig : Option String) (r : ReservationRecord)
    (hroom : roomId ≠ "") (hig : ∀ s, ig = some s → s ≠ "") :
    conflictsWith roomId a d ig r = true ↔
      (r.roomId = some roomId ∧ ig ≠ some r.id ∧
        r.status ∈ ACTIVE_RESERVATION_STATUSES ∧
        (r.arrivalDate < d ∧ a < r.departureDate)) := by
  unfold conflictsWith
  rcases hr : r.roomId with _ | rid
  · simp [strTruthy, hr]
  · by_cases heq : rid = roomId
    · subst heq
      have h1 : strTruthy (some rid) = true := by
        simp [strTruthy]
        exact hroom
      rw [h1]
      simp only [Bool.not_true, Bool.false_eq_true, if_false, bne_self_eq_false]
      rcases ig with _ | igv
      · simp [rangesOverlap, ACTIVE_RESERVATION_STATUSES]
      · have higv : igv ≠ "" := hig igv rfl
        by_cases hid : r.id = igv
        · simp [higv, hid]
        · simp [higv, hid, Ne.symm hid, rangesOverlap]
    · constructor
      · intro h
        exfalso
        by_cases h1 : strTruthy (some rid) = true
        · rw [h1] at h
          have h2 : (some rid != some roomId) = true := by
            simp [bne_iff_ne, heq]
          simp [h2] at h
        · simp [Bool.not_eq_true] at h1
          rw [h1] at h
          simp at h
      · rintro ⟨h1, -⟩
        exact absurd (by injection h1) heq

/-- C1.  The availability check `ensureRoomAvailable` signals a conflict
(throws) iff some reservation has the target `roomId`, is not the
excluded one, has an active status (DRAFT/CONFIRMED/CHECKED_IN), and its
half-open `[arrivalDate, departureDate)` interval overlaps the queried
interval (`aStart < bEnd && bStart < aEnd`); moreover a reservation whose
departure date equals the queried arrival date never counts as a
conflict. -/
theorem ensureRoomAvailable_conflict_iff (reservations : List ReservationRecord)
    (roomId : String) (arrivalDate departureDate : Int) (ig : Option String)
    (hroom : roomId ≠ "") (hig : ∀ s, ig = some s → s ≠ "") :
    (isError (ensureRoomAvailable reservations roomId arrivalDate departureDate ig)
        = true ↔
      ∃ r ∈ reservations, r.roomId = some roomId ∧ ig ≠ some r.id ∧
        r.status ∈ ACTIVE_RESERVATION_STATUSES ∧
        (r.arrivalDate < departureDate ∧ arrivalDate < r.departureDate)) ∧
    (∀ r : ReservationRecord, arrivalDate = r.departureDate →
      conflictsWith roomId arrivalDate departureDate ig r = false) := by
  constructor
  · unfold ensureRoomAvailable
    rcases hfind : reservations.find?
        (conflictsWith roomId arrivalDate departureDate ig) with _ | r
    · simp only [isError, Bool.false_eq_true, false_iff]
      rw [List.find?_eq_none] at hfind
      rintro ⟨r, hmem, hconf⟩
      exact hfind r hmem ((conflictsWith_eq_true_iff roomId arrivalDate
        departureDate ig r hroom hig).mpr hconf)
    · simp only [isError, true_iff]
      have hp := List.find?_some hfind
      have hmem := List.mem_of_find?_eq_some hfind
      exact ⟨r, hmem, (conflictsWith_eq_true_iff roomId arrivalDate
        departureDate ig r hroom hig).mp hp⟩
  · intro r hdep
    unfold conflictsWith
    have hov : rangesOverlap r.arrivalDate r.departureDate arrivalDate
        departureDate = false := by
      simp [rangesOverlap]
      intro h
      omega
    rcases r.roomId with _ | rid
    · simp [strTruthy]
    · by_cases h1 : rid = "" <;> by_cases h2 : rid = roomId <;>
        simp [strTruthy, h1, h2, hov]

/-- Witness for C1: instantiating the availability characterisation at a
concrete store where reservation `resC1` occupies room `"101"` on
`[0, 3)` while the query asks for `[2, 5)`. -/
theorem ensureRoomAvailable_conflict_iff_witness :
    (("101" : String) ≠ "" ∧ (∀ s, (none : Option String) = some s → s ≠ "")) ∧
    ((isError (ensureRoomAvailable [resC1] "101" 2 5 none) = true ↔
      ∃ r ∈ [resC1], r.roomId = some "101" ∧ (none : Option String) ≠ some r.id ∧
        r.status ∈ ACTIVE_RESERVATION_STATUSES ∧
        (r.arrivalDate < 5 ∧ 2 < r.departureDate)) ∧
    (∀ r : ReservationRecord, 2 = r.departureDate →
      conflictsWith "101" 2 5 none r = false)) :=
  ⟨⟨by decide, by simp⟩,
    ensureRoomAvailable_conflict_iff [resC1] "101" 2 5 none (by decide) (by simp)⟩

/-- Reservations without an assigned room never conflict: dropping such a
reservation from the store changes neither availability check. -/
theorem unassigned_reservation_ignored (pre post : List ReservationRecord)
    (r : ReservationRecord) (hun : r.roomId = none) (roomId : String)
    (a d : Int) (ig : Option String) :
    ensureRoomAvailable (pre ++ r :: post) roomId a d ig =
      ensureRoomAvailable (pre ++ post) roomId a d ig := by
  unfold ensureRoomAvailable
  have hconf : conflictsWith roomId a d ig r = false := by
    unfold conflictsWith
    simp [strTruthy, hun]
  rw [List.find?_append, List.find?_append, List.find?_cons_of_neg]
  simp [hconf]

/-- C9.  A reservation whose `roomId` is unset is never counted as a
conflict: `ensureRoomAvailable` and the room-collecting core of
`getAvailability` give the same results whether or not the unassigned
reservation is in the store, for every room, date range and exclusion. -/
theorem unassigned_reservation_consumes_no_inventory
    (pre post : List ReservationRecord) (r : ReservationRecord)
    (hun : r.roomId = none) :
    (∀ roomId a d ig,
      ensureRoomAvailable (pre ++ r :: post) roomId a d ig =
        ensureRoomAvailable (pre ++ post) roomId a d ig) ∧
    (∀ profileHotelCode rooms hotelCode a d roomType,
      getAvailabilityRooms profileHotelCode rooms (pre ++ r :: post)
          hotelCode a d roomType =
        getAvailabilityRooms profileHotelCode rooms (pre ++ post)
          hotelCode a d roomType) := by
  refine ⟨fun roomId a d ig =>
    unassigned_reservation_ignored pre post r hun roomId a d ig, ?_⟩
  intro profileHotelCode rooms hotelCode a d roomType
  unfold getAvailabilityRooms
  simp only [unassigned_reservation_ignored pre post r hun]

/-- Witness for C9: the unassigned reservation `resC9` overlaps `[2, 5)`
on every day, yet room `"101"` stays available and listed. -/
theorem unassigned_reservation_consumes_no_inventory_witness :
    resC9.roomId = none ∧
    ((∀ roomId a d ig,
      ensureRoomAvailable ([] ++ resC9 :: []) roomId a d ig =
        ensureRoomAvailable ([] ++ []) roomId a d ig) ∧
    (∀ profileHotelCode rooms hotelCode a d roomType,
      getAvailabilityRooms profileHotelCode rooms ([] ++ resC9 :: [])
          hotelCode a d roomType =
        getAvailabilityRooms profileHotelCode rooms ([] ++ [])
          hotelCode a d roomType)) :=
  ⟨rfl, unassigned_reservation_consumes_no_inventory [] [] resC9 rfl⟩

/-- C8.  The settlement calculator is a pure function: it keeps the
reservation's billing charges, appends a late-checkout fee of 25% of the
original total (rounded to 2 decimals) when requested, appends the
supplied extra charges, totals the resulting charge amounts, and sets
`balanceDue` to `0` unconditionally. -/
theorem settleReservation_spec (r : ReservationRecord)
    (opts : SettlementOptions) :
    (settleReservation r opts).billing.balanceDue = 0 ∧
    (settleReservation r opts).billing.currency = r.billing.currency ∧
    (settleReservation r opts).billing.charges =
      r.billing.charges ++
        (if opts.lateCheckout.getD false then
          [{ description := "Late checkout fee"
             amount := roundCurrency (r.billing.totalAmount * LATE_CHECKOUT_RATE) }]
         else []) ++
        opts.extraCharges.getD [] ∧
    (settleReservation r opts).billing.totalAmount =
      ((settleReservation r opts).billing.charges.map (fun c => c.amount)).sum := by
  unfold settleReservation
  refine ⟨rfl, rfl, ?_, ?_⟩
  · rcases opts.extraCharges with _ | extra <;>
      rcases h : opts.lateCheckout.getD false <;> simp [h]
  · simp only [foldl_add_eq_sum_map, zero_add]

/-- Replacing the record found by `p` makes it the record `find?`
returns, provided the replacement still satisfies `p`. -/
theorem find?_replaceBy {α : Type} (p : α → Bool) (r' : α) (l : List α)
    (r : α) (hfind : l.find? p = some r) (hr' : p r' = true) :
    (replaceBy p r' l).find? p = some r' := by
  induction l with
  | nil => simp at hfind
  | cons x xs ih =>
    by_cases hx : p x = true
    · simp [replaceBy, hx, hr']
    · rw [List.find?_cons_of_neg _ (by simp [hx])] at hfind
      simpa [replaceBy, hx] using ih hfind

/-- Two successive overwrites at the same key collapse to the second
one. -/
theorem replaceBy_replaceBy {α : Type} (p : α → Bool) (r1 r2 : α)
    (l : List α) (h : p r1 = true) :
    replaceBy p r2 (replaceBy p r1 l) = replaceBy p r2 l := by
  unfold replaceBy
  rw [List.map_map]
  refine List.map_congr_left (fun x _ => ?_)
  by_cases hx : p x = true <;> simp [hx, h]

/-- Counterexample to C5 as stated: deleting the CANCELLED reservation
`resC5` succeeds and removes the record, while the claim requires a
state error leaving the record stored. -/
theorem deleteReservation_cancelled_succeeds :
    resC5.status = .CANCELLED ∧
    (deleteReservation dbC5 "r5").2 = .ok () ∧
    (deleteReservation dbC5 "r5").1.reservations = [] := by
  refine ⟨rfl, ?_, ?_⟩ <;> decide

/-- C5 (amended).  `deleteReservation` fails with the state error
exactly for CHECKED_IN and CHECKED_OUT reservations, leaving the store
untouched; for DRAFT, CONFIRMED **and CANCELLED** reservations it
succeeds and removes the record. -/
theorem deleteReservation_state_guard (st : Db) (id : String)
    (r : ReservationRecord)
    (hfind : st.reservations.find? (fun x => x.id == id) = some r) :
    ((r.status = .CHECKED_IN ∨ r.status = .CHECKED_OUT) →
      deleteReservation st id =
        (st, .error ⟨400, "Cannot delete reservation during or after stay"⟩)) ∧
    ((r.status = .DRAFT ∨ r.status = .CONFIRMED ∨ r.status = .CANCELLED) →
      deleteReservation st id =
        ({ st with reservations :=
            st.reservations.filter (fun x => !(x.id == id)) }, .ok ())) := by
  have hp := List.find?_some hfind
  have hany : st.reservations.any (fun x => x.id == id) = true := by
    rw [List.any_eq_true]
    exact ⟨r, List.mem_of_find?_eq_some hfind, hp⟩
  unfold deleteReservation deleteFromReservationsTable
  rw [hfind, hany]
  constructor
  · rintro (h | h) <;> simp [h]
  · rintro (h | h | h) <;> simp [h]

/-- Witness for the amended C5 at the concrete store `dbC5`: the
CANCELLED reservation is removed. -/
theorem deleteReservation_state_guard_witness :
    dbC5.reservations.find? (fun x => x.id == "r5") = some resC5 ∧
    (resC5.status = .DRAFT ∨ resC5.status = .CONFIRMED ∨
      resC5.status = .CANCELLED) ∧
    deleteReservation dbC5 "r5" =
      ({ dbC5 with reservations :=
          dbC5.reservations.filter (fun x => !(x.id == "r5")) }, .ok ()) :=
  ⟨by decide, by decide,
    (deleteReservation_state_guard dbC5 "r5" resC5 (by decide)).2
      (by decide)⟩

/-- C10.  Every successful `updateReservation` replaces the stored
billing snapshot by `computeBilling(nightlyRate, nights)` computed from
the (possibly unchanged) rate, nights and currency — a single charge of
`nightlyRate × nights` with `balanceDue` equal to that total — so a
snapshot previously synchronised from the ledger is discarded even by a
no-op update. -/
theorem updateReservation_overwrites_billing
    (st : Db) (id : String) (input : UpdateReservationInput)
    (st' : Db) (payload existing : ReservationRecord)
    (hfind : st.reservations.find? (fun r => r.id == id) = some existing)
    (h : updateReservation st id input = (st', .ok payload)) :
    ∃ nights, nightsBetween (input.arrivalDate.getD existing.arrivalDate)
        (input.departureDate.getD existing.departureDate) = .ok nights ∧
      payload.billing = computeBilling (input.nightlyRate.getD existing.nightlyRate)
        nights (input.currency.getD existing.billing.currency) ∧
      payload.billing.totalAmount =
        (input.nightlyRate.getD existing.nightlyRate) * nights ∧
      payload.billing.balanceDue = payload.billing.totalAmount ∧
      payload.billing.charges.length = 1 ∧
      st'.reservations.find? (fun r => r.id == id) = some payload := by
  have hp := List.find?_some hfind
  unfold updateReservation at h
  simp only [hfind] at h
  split at h <;> try simp at h
  rcases hnb : nightsBetween (input.arrivalDate.getD existing.arrivalDate)
      (input.departureDate.getD existing.departureDate) with e | nights
  · simp only [hnb] at h
    simp at h
  · simp only [hnb] at h
    refine ⟨nights, rfl, ?_⟩
    split at h <;> try simp at h
    split at h <;> try simp at h
    split at h <;> try simp at h
    split at h <;> try simp at h
    rename_i x4 fst rs2 hupd
    obtain ⟨hst', hpay⟩ := h
    subst hpay
    subst hst'
    unfold updateReservationsTable at hupd
    simp only [hfind] at hupd
    rw [Except.ok.injEq, Prod.mk.injEq] at hupd
    obtain ⟨hfst, hrs⟩ := hupd
    subst hfst
    subst hrs
    refine ⟨rfl, rfl, rfl, rfl, ?_⟩
    exact find?_replaceBy _ _ _ _ hfind (by simpa [applyReservationUpdate] using hp)

/-- Concrete evaluation of the no-op update of `resC10`. -/
theorem updateC10_eval :
    updateReservation dbC10 "r10" {} =
      ({ dbC10 with reservations := [resC10p] }, .ok resC10p) := by
  have h750 : round ((7500 : ℚ) * 100) = 750000 := by
    norm_num [round_eq]
  simp +decide [updateReservation, dbC10, resC10, resC10p, roomC9, resC1,
    nightsBetween, truthyOpt, ensureRoomBelongsToHotel, ensureRoomAvailable,
    conflictsWith, strTruthy, rangesOverlap, ACTIVE_RESERVATION_STATUSES,
    normalizeRatePlan, normalizeSource, updateReservationsTable,
    applyReservationUpdate, replaceBy, computeBilling, formatFixed2,
    roundCurrency, h750]
  norm_num

/-- Witness for C10: a no-op update (empty input) of `resC10` replaces
its synchronised billing snapshot by `computeBilling(7500, 3)`. -/
theorem updateReservation_overwrites_billing_witness :
    dbC10.reservations.find? (fun r => r.id == "r10") = some resC10 ∧
    updateReservation dbC10 "r10" {} =
      ({ dbC10 with reservations := [resC10p] }, .ok resC10p) ∧
    (∃ nights,
      nightsBetween (({} : UpdateReservationInput).arrivalDate.getD resC10.arrivalDate)
        (({} : UpdateReservationInput).departureDate.getD resC10.departureDate) =
          .ok nights ∧
      resC10p.billing = computeBilling
        (({} : UpdateReservationInput).nightlyRate.getD resC10.nightlyRate) nights
        (({} : UpdateReservationInput).currency.getD resC10.billing.currency) ∧
      resC10p.billing.totalAmount =
        (({} : UpdateReservationInput).nightlyRate.getD resC10.nightlyRate) * nights ∧
      resC10p.billing.balanceDue = resC10p.billing.totalAmount ∧
      resC10p.billing.charges.length = 1 ∧
      ({ dbC10 with reservations := [resC10p] } : Db).reservations.find?
        (fun r => r.id == "r10") = some resC10p) :=
  ⟨by decide, updateC10_eval,
    updateReservation_overwrites_billing dbC10 "r10" {}
      ({ dbC10 with reservations := [resC10p] }) resC10p resC10
      (by decide) updateC10_eval⟩

/-- Counterexample to C6 as stated: check-in on the DIRTY room `roomC6`
succeeds and writes OCCUPIED even though DIRTY → OCCUPIED is not in the
transition table (and is not a self-transition), and
`assertValidRoomStatusTransition` accepts the self-transition
OCCUPIED → OCCUPIED which is also not in the table. -/
theorem checkIn_bypasses_room_status_machine :
    dbC6.rooms.find? (fun r => r.id == "rm6") = some roomC6 ∧
    roomC6.status = .DIRTY ∧
    isError (checkIn dbC6 "r6" none none).2 = false ∧
    ((checkIn dbC6 "r6" none none).1.rooms.find? (fun r => r.id == "rm6") =
      some { roomC6 with status := .OCCUPIED, updatedAt := 30 }) ∧
    ¬(RoomStatus.OCCUPIED ∈ ROOM_STATUS_TRANSITIONS .DIRTY) ∧
    RoomStatus.DIRTY ≠ .OCCUPIED ∧
    assertValidRoomStatusTransition .OCCUPIED .OCCUPIED = .ok () ∧
    ¬(RoomStatus.OCCUPIED ∈ ROOM_STATUS_TRANSITIONS .OCCUPIED) := by
  decide

/-- C6 (amended).  The guard used by the generic room update,
`assertValidRoomStatusTransition`, accepts exactly the transitions of the
table plus all self-transitions; but `checkIn` and `checkOut` never
consult it: on success they write OCCUPIED (resp. DIRTY) to the resolved
room unconditionally, whatever the room's previous status — including
transitions outside the table such as DIRTY → OCCUPIED. -/
theorem room_status_machine_scope :
    (∀ current next : RoomStatus,
      assertValidRoomStatusTransition current next = .ok () ↔
        (current = next ∨ next ∈ ROOM_STATUS_TRANSITIONS current)) ∧
    (∀ (st : Db) (reservationId : String) (inputRoomId : Option String)
        (st' : Db) (payload : ReservationRecord),
      checkIn st reservationId inputRoomId none = (st', .ok payload) →
      ∃ room ∈ st.rooms, st'.rooms =
        replaceBy (fun r => r.id == room.id)
          { room with status := .OCCUPIED, updatedAt := st.time } st.rooms) ∧
    (∀ (st : Db) (reservationId : String) (options : SettlementOptions)
        (st' : Db) (out : ReservationRecord × SettlementResult × Int),
      checkOut st reservationId options none = (st', .ok out) →
      ∃ room ∈ st.rooms, st'.rooms =
        replaceBy (fun r => r.id == room.id)
          { room with status := .DIRTY, updatedAt := st.time } st.rooms) := by
  refine ⟨?_, ?_, ?_⟩
  · intro current next
    cases current <;> cases next <;> decide
  · intro st reservationId inputRoomId st' payload h
    unfold checkIn at h
    split at h <;> try simp at h
    split at h <;> try simp at h
    split at h <;> try simp at h
    split at h <;> try simp at h
    rename_i xR room hRoomFound
    split at h <;> try simp at h
    split at h <;> try simp at h
    split at h <;> try simp at h
    split at h <;> try simp at h
    rename_i xRU fstRU roomsRU hUpdRoom
    split at h <;> try simp at h
    obtain ⟨hst', hpay⟩ := h
    subst hst'
    unfold updateRoomsTable at hUpdRoom
    split at hUpdRoom
    · simp at hUpdRoom
    · rename_i room2 hRoom2
      rw [Except.ok.injEq, Prod.mk.injEq] at hUpdRoom
      obtain ⟨hfst, hrooms⟩ := hUpdRoom
      refine ⟨room2, List.mem_of_find?_eq_some hRoom2, ?_⟩
      have hid2 : room2.id = room.id := by
        simpa using List.find?_some hRoom2
      rw [← hrooms]
      simp [applyRoomUpdate, replaceBy, hid2]
  · intro st reservationId options st' out h
    unfold checkOut at h
    split at h <;> try simp at h
    split at h <;> try simp at h
    split at h <;> try simp at h
    split at h <;> try simp at h
    split at h <;> try simp at h
    rename_i xR room hRoomFound
    split at h <;> try simp at h
    split at h <;> try simp at h
    split at h <;> try simp at h
    rename_i xRU fstRU roomsRU hUpdRoom
    split at h <;> try simp at h
    obtain ⟨hst', hpay⟩ := h
    subst hst'
    unfold updateRoomsTable at hUpdRoom
    split at hUpdRoom
    · simp at hUpdRoom
    · rename_i room2 hRoom2
      rw [Except.ok.injEq, Prod.mk.injEq] at hUpdRoom
      obtain ⟨hfst, hrooms⟩ := hUpdRoom
      refine ⟨room2, List.mem_of_find?_eq_some hRoom2, ?_⟩
      have hid2 : room2.id = room.id := by
        simpa using List.find?_some hRoom2
      rw [← hrooms]
      simp [applyRoomUpdate, replaceBy, hid2]

/-- Witness for the amended C6: check-in on the DIRTY `roomC6` and
check-out on the DIRTY `roomC6b` both succeed, each writing its fixed
target status unconditionally. -/
theorem room_status_machine_scope_witness :
    checkIn dbC6 "r6" none none = (dbC6p, .ok resC6p) ∧
    checkOut dbC6b "r6b" {} none = (dbC6bp, .ok (resC6bp, settC6b, 3)) ∧
    (∃ room ∈ dbC6.rooms, dbC6p.rooms =
      replaceBy (fun r => r.id == room.id)
        { room with status := .OCCUPIED, updatedAt := dbC6.time } dbC6.rooms) ∧
    (∃ room ∈ dbC6b.rooms, dbC6bp.rooms =
      replaceBy (fun r => r.id == room.id)
        { room with status := .DIRTY, updatedAt := dbC6b.time } dbC6b.rooms) :=
  ⟨by decide, by decide,
    room_status_machine_scope.2.1 dbC6 "r6" none dbC6p resC6p (by decide),
    room_status_machine_scope.2.2 dbC6b "r6b" {} dbC6bp (resC6bp, settC6b, 3)
      (by decide)⟩


/-- An option-valued key falling back to itself is itself. -/
theorem orElse_self {α : Type} (o : Option α) : (o.orElse fun _ => o) = o := by
  cases o <;> rfl

/-- A present update key overwrites. -/
theorem some_orElse_thunk {α : Type} (a : α) (f : Unit → Option α) :
    (some a).orElse f = some a := rfl

/-- An absent update key falls through. -/
theorem none_orElse_thunk {α : Type} (f : Unit → Option α) :
    (none : Option α).orElse f = f () := rfl

/-- Counterexample to C3 as stated: when the room-status write fails
during check-in of `resC3` (whose pre-transition snapshot has no
`checkInAt` key), the compensating write re-raises the error but leaves
`checkInAt` set, so the stored record is not the pre-transition
snapshot. -/
theorem checkIn_rollback_not_exact :
    (checkIn dbC3 "r3" none (some errC3)).2 = .error errC3 ∧
    ((checkIn dbC3 "r3" none (some errC3)).1.reservations.find?
        (fun r => r.id == "r3") = some { resC3 with checkInAt := some 40 }) ∧
    resC3.checkInAt = none ∧
    ({ resC3 with checkInAt := some 40 } : ReservationRecord) ≠ resC3 := by
  decide

/-- C3 (amended).  When the room-status write fails during `checkIn` or
`checkOut`, the compensating write restores every key present in the
pre-transition snapshot (status, room type, billing, `updatedAt`, ...)
and the original error is re-raised; but because the store merges update
keys, a key the transition introduced survives: `checkInAt` keeps the
transition's timestamp when the snapshot had none, a newly assigned
`roomId` stays, and likewise `checkOutAt` for check-out.  When the
snapshot already carried `roomId` and `checkInAt` (resp. `checkOutAt`),
the restoration is exact. -/
theorem rollback_restores_snapshot_keys (st : Db) (e : HttpError) :
    (∀ (reservationId : String) (inputRoomId : Option String)
        (reservation : ReservationRecord) (roomId : String) (room : RoomRecord),
      st.reservations.find? (fun r => r.id == reservationId) = some reservation →
      (reservation.status = .CONFIRMED ∨ reservation.status = .DRAFT) →
      truthyOpt (inputRoomId.orElse (fun _ => reservation.roomId)) = some roomId →
      st.rooms.find? (fun r => r.id == roomId) = some room →
      (room.hotelCode != reservation.hotelCode) = false →
      ensureRoomAvailable st.reservations room.id reservation.arrivalDate
        reservation.departureDate (some reservation.id) = .ok () →
      (checkIn st reservationId inputRoomId (some e) =
        ({ st with reservations :=
            (replaceBy (fun r => r.id == reservationId)
              ({ reservation with
                roomId := reservation.roomId.orElse (fun _ => some room.id)
                checkInAt := reservation.checkInAt.orElse (fun _ => some st.time) })
              st.reservations) }, .error e) ∧
       (reservation.roomId.isSome → reservation.checkInAt.isSome →
        ({ reservation with
            roomId := reservation.roomId.orElse (fun _ => some room.id)
            checkInAt := reservation.checkInAt.orElse (fun _ => some st.time) }
          : ReservationRecord) = reservation))) ∧
    (∀ (reservationId : String) (options : SettlementOptions)
        (reservation : ReservationRecord) (roomId : String) (room : RoomRecord)
        (nights : Int),
      st.reservations.find? (fun r => r.id == reservationId) = some reservation →
      reservation.status = .CHECKED_IN →
      reservation.roomId = some roomId →
      roomId ≠ "" →
      st.rooms.find? (fun r => r.id == roomId) = some room →
      nightsBetween reservation.arrivalDate reservation.departureDate = .ok nights →
      (checkOut st reservationId options (some e) =
        ({ st with reservations :=
            (replaceBy (fun r => r.id == reservationId)
              ({ reservation with
                checkOutAt := reservation.checkOutAt.orElse (fun _ => some st.time) })
              st.reservations) }, .error e) ∧
       (reservation.checkOutAt.isSome →
        ({ reservation with
            checkOutAt := reservation.checkOutAt.orElse (fun _ => some st.time) }
          : ReservationRecord) = reservation))) := by
  constructor
  · intro reservationId inputRoomId reservation roomId room hfind hstat hroomid
      hroomfind hhotel havail
    have hp := List.find?_some hfind
    have hcond : (!([ReservationStatus.CONFIRMED, .DRAFT].contains
        reservation.status)) = false := by
      rcases hstat with hs | hs <;> simp [hs]
    have hid : reservation.id = reservationId := by simpa using hp
    have hfind2 : List.find? (fun r => r.id == reservation.id)
        st.reservations = some reservation := by
      rw [hid]
      exact hfind
    have hfindRepl : ∀ u : ReservationUpdate,
        (replaceBy (fun r => r.id == reservation.id)
          (applyReservationUpdate reservation u) st.reservations).find?
          (fun r => r.id == reservation.id) =
        some (applyReservationUpdate reservation u) :=
      fun u => find?_replaceBy _ _ _ _ hfind2 (by simp [applyReservationUpdate])
    have hcollapse : ∀ (x : ReservationRecord) (u : ReservationUpdate)
        (l : List ReservationRecord),
        replaceBy (fun r => r.id == reservation.id) x
          (replaceBy (fun r => r.id == reservation.id)
            (applyReservationUpdate reservation u) l) =
        replaceBy (fun r => r.id == reservation.id) x l :=
      fun x u l => replaceBy_replaceBy _ _ _ _ (by simp [applyReservationUpdate])
    constructor
    · unfold checkIn
      simp only [hfind, hcond, Bool.false_eq_true, if_false, hroomid, hroomfind,
        ensureRoomBelongsToHotel, hhotel, havail, updateReservationsTable,
        hfind2, hfindRepl, hcollapse]
      simp only [← hid]
      simp [applyReservationUpdate, snapshotUpdate, some_orElse_thunk,
        none_orElse_thunk, orElse_self]
    · intro h1 h2
      rcases hv : reservation.roomId with _ | v
      · rw [hv] at h1
        simp at h1
      · rcases hw : reservation.checkInAt with _ | w
        · rw [hw] at h2
          simp at h2
        · simp only [hv, hw, some_orElse_thunk]
          rw [← hv, ← hw]
  · intro reservationId options reservation roomId room nights hfind hstat
      hroomid hne hroomfind hnights
    have hp := List.find?_some hfind
    have hid : reservation.id = reservationId := by simpa using hp
    have hfind2 : List.find? (fun r => r.id == reservation.id)
        st.reservations = some reservation := by
      rw [hid]
      exact hfind
    have hfindRepl : ∀ u : ReservationUpdate,
        (replaceBy (fun r => r.id == reservation.id)
          (applyReservationUpdate reservation u) st.reservations).find?
          (fun r => r.id == reservation.id) =
        some (applyReservationUpdate reservation u) :=
      fun u => find?_replaceBy _ _ _ _ hfind2 (by simp [applyReservationUpdate])
    have hcollapse : ∀ (x : ReservationRecord) (u : ReservationUpdate)
        (l : List ReservationRecord),
        replaceBy (fun r => r.id == reservation.id) x
          (replaceBy (fun r => r.id == reservation.id)
            (applyReservationUpdate reservation u) l) =
        replaceBy (fun r => r.id == reservation.id) x l :=
      fun x u l => replaceBy_replaceBy _ _ _ _ (by simp [applyReservationUpdate])
    have hcond : (reservation.status != ReservationStatus.CHECKED_IN) = false := by
      simp [hstat]
    have htruthy : (!(strTruthy reservation.roomId)) = false := by
      simp [hroomid, strTruthy, hne]
    constructor
    · unfold checkOut
      simp only [hfind, hcond, Bool.false_eq_true, if_false, htruthy, hroomid,
        hroomfind, hnights, updateReservationsTable, hfind2, hfindRepl,
        hcollapse]
      simp only [← hid]
      simp [applyReservationUpdate, snapshotUpdate, some_orElse_thunk,
        none_orElse_thunk, orElse_self, strTruthy, hne, hroomid]
    · intro h3
      rcases hw : reservation.checkOutAt with _ | w
      · rw [hw] at h3
        simp at h3
      · simp only [hw, some_orElse_thunk]
        rw [← hw]

/-- Witness for the amended C3: injected room-write failures during
check-in of `resC3` and check-out of `resC3b`, with the rollback formula
instantiated at those stores. -/
theorem rollback_restores_snapshot_keys_witness :
    ((checkIn dbC3 "r3" none (some errC3) =
        ({ dbC3 with reservations :=
            (replaceBy (fun r => r.id == "r3")
              ({ resC3 with
                  roomId := resC3.roomId.orElse (fun _ => some roomC3.id)
                  checkInAt := resC3.checkInAt.orElse (fun _ => some dbC3.time) })
              dbC3.reservations) }, .error errC3) ∧
      (resC3.roomId.isSome → resC3.checkInAt.isSome →
        ({ resC3 with
            roomId := resC3.roomId.orElse (fun _ => some roomC3.id)
            checkInAt := resC3.checkInAt.orElse (fun _ => some dbC3.time) }
          : ReservationRecord) = resC3))) ∧
    ((checkOut dbC3b "r3b" {} (some errC3) =
        ({ dbC3b with reservations :=
            (replaceBy (fun r => r.id == "r3b")
              ({ resC3b with
                  checkOutAt := resC3b.checkOutAt.orElse (fun _ => some dbC3b.time) })
              dbC3b.reservations) }, .error errC3) ∧
      (resC3b.checkOutAt.isSome →
        ({ resC3b with
            checkOutAt := resC3b.checkOutAt.orElse (fun _ => some dbC3b.time) }
          : ReservationRecord) = resC3b))) :=
  ⟨(rollback_restores_snapshot_keys dbC3 errC3).1 "r3" none resC3 "rm3" roomC3
      (by decide) (Or.inl (by decide)) (by decide) (by decide) (by decide)
      (by decide),
    (rollback_restores_snapshot_keys dbC3b errC3).2 "r3b" {} resC3b "rm3b"
      roomC3b 3 (by decide) (by decide) (by decide) (by decide) (by decide)
      (by decide)⟩

/-- Length of a generated id. -/
theorem genId_length (n : Nat) : (genId n).length = n + 1 := by
  simp [genId, String.length]

/-- Generated ids satisfy the generated-id test. -/
theorem isGenId_genId (n : Nat) : isGenId (genId n) = true := by
  simp [isGenId, genId, String.length]

/-- A record collection whose ids are compatible with the counter does
not contain the next generated id. -/
theorem any_eq_genId_eq_false {α : Type} (f : α → String) (l : List α)
    (next : Nat) (h : ∀ x ∈ l, goodId next (f x)) :
    (l.any (fun x => f x == genId next)) = false := by
  rw [Bool.eq_false_iff]
  intro hany
  rw [List.any_eq_true] at hany
  obtain ⟨x, hmem, hx⟩ := hany
  have hfx : f x = genId next := by simpa using hx
  have hgood := h x hmem
  rw [hfx] at hgood
  have := hgood (isGenId_genId next)
  rw [genId_length] at this
  omega

/-- `goodId` is monotone in the counter. -/
theorem goodId_mono {next m : Nat} (s : String) (h : goodId next s)
    (hle : next ≤ m) : goodId m s := by
  intro hg
  exact le_trans (h hg) hle

/-- Membership after an overwrite: every record is the replacement or an
original. -/
theorem mem_replaceBy {α : Type} {p : α → Bool} {r' x : α} {l : List α}
    (h : x ∈ replaceBy p r' l) : x = r' ∨ x ∈ l := by
  unfold replaceBy at h
  rw [List.mem_map] at h
  obtain ⟨y, hy, hxy⟩ := h
  by_cases hp : p y = true
  · rw [hp] at hxy
    simp at hxy
    exact Or.inl hxy.symm
  · rw [Bool.eq_false_iff.mpr hp] at hxy
    simp at hxy
    exact Or.inr (hxy ▸ hy)

/-- Counterexample to C7 as stated: `settleBill` with a valid payment
followed by a non-positive one fails with the validation error, yet the
valid payment has already been inserted — the store is modified. -/
theorem settleBill_partial_insert_on_invalid :
    (settleBill dbC7 { reservationId := "r7"
                       payments := [payC7good, payC7bad] }).2 =
      .error ⟨400, "Payment amount must be greater than zero"⟩ ∧
    (settleBill dbC7 { reservationId := "r7"
                       payments := [payC7good, payC7bad] }).1.payments.length = 1 ∧
    dbC7.payments.length = 0 := by
  have h100 : roundCurrency 100 = 100 := by
    norm_num [roundCurrency]
  refine ⟨?_, ?_, rfl⟩ <;>
    simp +decide [settleBill, settleLoop, dbC7, resC7, billC7, folioC7,
      payC7good, payC7bad, ensureBillForReservation, resolveFolio, truthyOpt,
      insertPayment, h100]


/-- With pairwise-distinct ids, looking a member up by its own id finds
exactly it. -/
theorem find_self_of_nodup (l : List BillRecord) (b : BillRecord)
    (hnodup : (l.map (fun x => x.id)).Nodup) (hmem : b ∈ l) :
    l.find? (fun x => x.id == b.id) = some b := by
  induction l with
  | nil => simp at hmem
  | cons x xs ih =>
    rw [List.map_cons, List.nodup_cons] at hnodup
    rcases List.mem_cons.mp hmem with hbx | hbxs
    · subst hbx
      simp
    · have hne : (x.id == b.id) = false := by
        rw [Bool.eq_false_iff]
        intro hxe
        refine hnodup.1 ?_
        rw [List.mem_map]
        refine ⟨b, hbxs, ?_⟩
        have hxb : x.id = b.id := by simpa using hxe
        exact hxb.symm
      rw [List.find?_cons_of_neg _ (by simp [hne])]
      exact ih hnodup.2 hbxs

/-- Replacing records without changing their ids keeps the id list. -/
theorem map_id_replaceBy (l : List BillRecord) (p : BillRecord → Bool)
    (r' : BillRecord) (h : ∀ x ∈ l, p x = true → r'.id = x.id) :
    ((replaceBy p r' l).map (fun b => b.id)) = l.map (fun b => b.id) := by
  unfold replaceBy
  rw [List.map_map]
  refine List.map_congr_left (fun x hx => ?_)
  by_cases hp : p x = true
  · simp [hp, h x hx hp]
  · simp [hp]

/-- Success shape of `ensureBillForReservation`: the bill belongs to the
reservation, is stored first under the reservation's id, everything else
is untouched, and ids stay fresh and unique. -/
theorem ensureBill_spec (st : Db) (r : ReservationRecord) (st1 : Db)
    (bill : BillRecord)
    (hfreshB : ∀ b ∈ st.bills, goodId st.nextId b.id)
    (huniq : UniqueBillIds st)
    (h : ensureBillForReservation st r = (st1, .ok bill)) :
    bill.reservationId = r.id ∧
    st1.bills.find? (fun b => b.reservationId == r.id) = some bill ∧
    st1.reservations = st.reservations ∧
    st1.payments = st.payments ∧
    st1.taxes = st.taxes ∧
    st1.rooms = st.rooms ∧
    st1.time = st.time ∧
    (bill ∈ st.bills ∨ bill.charges = []) ∧
    UniqueBillIds st1 ∧
    (∀ b ∈ st1.bills, goodId st1.nextId b.id) ∧
    bill ∈ st1.bills ∧
    (∀ b' ∈ st1.bills, b' ∈ st.bills ∨ b'.charges = []) ∧
    st.nextId ≤ st1.nextId := by
  unfold ensureBillForReservation at h
  split at h
  · rename_i existing hfound
    rw [Prod.mk.injEq] at h
    obtain ⟨hst, hbill⟩ := h
    rw [Except.ok.injEq] at hbill
    subst hbill
    subst hst
    exact ⟨by simpa using List.find?_some hfound, hfound, rfl, rfl, rfl, rfl,
      rfl, Or.inl (List.mem_of_find?_eq_some hfound), huniq, hfreshB,
      List.mem_of_find?_eq_some hfound, fun b' hb' => Or.inl hb',
      le_refl _⟩
  · rename_i hnone
    rw [List.find?_eq_none] at hnone
    unfold insertBill at h
    have hnocoll : (st.bills.any
        (fun x => x.id == genId (st.nextId + 1))) = false :=
      any_eq_genId_eq_false (fun x => x.id) st.bills (st.nextId + 1)
        (fun b hb => goodId_mono _ (hfreshB b hb) (Nat.le_succ _))
    simp only [hnocoll, Bool.false_eq_true, if_false] at h
    rw [Prod.mk.injEq] at h
    obtain ⟨hst, hbill⟩ := h
    rw [Except.ok.injEq] at hbill
    subst hbill
    subst hst
    refine ⟨rfl, ?_, rfl, rfl, rfl, rfl, rfl, Or.inr rfl, ?_, ?_, by simp, ?_,
      by simp⟩
    · rw [List.find?_append]
      have h1 : st.bills.find? (fun b => b.reservationId == r.id) = none := by
        rw [List.find?_eq_none]
        intro x hx
        exact hnone x hx
      rw [h1]
      simp
    · unfold UniqueBillIds
      rw [List.map_append, List.nodup_append]
      refine ⟨huniq, by simp, ?_⟩
      intro a ha
      rw [List.mem_map] at ha
      obtain ⟨b, hb, hab⟩ := ha
      simp only [List.map_cons, List.map_nil, List.mem_singleton]
      intro hcontra
      have := (hfreshB b hb) (by rw [hab, hcontra]; exact isGenId_genId _)
      rw [hab, hcontra, genId_length] at this
      omega
    · intro b hb
      simp only [List.mem_append, List.mem_singleton] at hb
      rcases hb with hb | hb
      · exact goodId_mono _ (hfreshB b hb) (by simp)
      · subst hb
        intro hg
        simp [genId_length]
    · intro b' hb'
      simp only [List.mem_append, List.mem_singleton] at hb'
      rcases hb' with hb' | hb'
      · exact Or.inl hb'
      · subst hb'
        exact Or.inr rfl

/-- Overwriting through one predicate keeps a lookup through another
predicate pointing at the overwritten record, when the looked-up record
is the one being replaced and the replacement still matches. -/
theorem find?_replaceBy_second {α : Type} (q p : α → Bool) (r' b : α)
    (l : List α) (hfind : l.find? q = some b) (hpb : p b = true)
    (hqr : q r' = true) : (replaceBy p r' l).find? q = some r' := by
  induction l with
  | nil => simp at hfind
  | cons x xs ih =>
    by_cases hpx : p x = true
    · simp [replaceBy, hpx, hqr]
    · have hx : (replaceBy p r' (x :: xs)) =
          x :: replaceBy p r' xs := by
        simp [replaceBy, hpx]
      rw [hx]
      by_cases hqx : q x = true
      · rw [List.find?_cons_of_pos _ hqx] at hfind
        rw [Option.some.injEq] at hfind
        subst hfind
        exact absurd hpb hpx
      · rw [List.find?_cons_of_neg _ (by simp [hqx])] at hfind
        rw [List.find?_cons_of_neg _ (by simp [hqx])]
        exact ih hfind

/-- The replacement record is a member of the overwritten list as soon
as some stored record matches the predicate. -/
theorem mem_replaceBy_self {α : Type} (p : α → Bool) (r' : α) (l : List α)
    (h : ∃ x ∈ l, p x = true) : r' ∈ replaceBy p r' l := by
  obtain ⟨x, hx, hpx⟩ := h
  unfold replaceBy
  exact List.mem_map.mpr ⟨x, hx, by simp [hpx]⟩

/-- A lookup skips a prefix in which it fails. -/
theorem find?_append_of_none {α : Type} (p : α → Bool) (l₁ l₂ : List α)
    (h : l₁.find? p = none) : (l₁ ++ l₂).find? p = l₂.find? p := by
  induction l₁ with
  | nil => rfl
  | cons x xs ih =>
    by_cases hpx : p x = true
    · rw [List.find?_cons_of_pos _ hpx] at h
      simp at h
    · rw [List.find?_cons_of_neg _ (by simp [hpx])] at h
      rw [List.cons_append, List.find?_cons_of_neg _ (by simp [hpx])]
      exact ih h

/-- An id-keyed overwrite through `applyBillUpdate` keeps bill ids
pairwise distinct. -/
theorem UniqueBillIds_replaceBy (st : Db) (bill : BillRecord)
    (u : BillUpdate) (huniq : UniqueBillIds st) :
    ((replaceBy (fun b => b.id == bill.id) (applyBillUpdate bill u)
      st.bills).map (fun b => b.id)).Nodup := by
  rw [map_id_replaceBy]
  · exact huniq
  · intro x hx hpx
    have hxb : x.id = bill.id := by simpa using hpx
    simp [applyBillUpdate, hxb]

/-- Success shape of `resolveFolio`: the returned bill keeps the charges,
id and reservation of the input bill, only the bill table may change (a
folio write), a lookup by reservation id now yields the returned bill,
and re-resolving the same folio reference against the returned bill's
folios is a no-op returning the same folio id. -/
theorem resolveFolio_spec (st : Db) (bill : BillRecord)
    (fid fname : Option String) (st1 : Db) (rb : BillRecord) (folio : String)
    (huniq : UniqueBillIds st) (hmem : bill ∈ st.bills)
    (h : resolveFolio st bill fid fname = (st1, .ok (rb, folio))) :
    rb.charges = bill.charges ∧
    rb.id = bill.id ∧
    rb.reservationId = bill.reservationId ∧
    st1.reservations = st.reservations ∧
    st1.payments = st.payments ∧
    st1.taxes = st.taxes ∧
    st1.rooms = st.rooms ∧
    st1.time = st.time ∧
    (∀ rid0, st.bills.find? (fun b => b.reservationId == rid0) = some bill →
      st1.bills.find? (fun b => b.reservationId == rid0) = some rb) ∧
    rb ∈ st1.bills ∧
    UniqueBillIds st1 ∧
    st.nextId ≤ st1.nextId ∧
    (∀ (st0 : Db) (b' : BillRecord), b'.folios = rb.folios →
      resolveFolio st0 b' fid fname = (st0, .ok (b', folio))) ∧
    (∀ b' ∈ st1.bills, b' = rb ∨ b' ∈ st.bills) := by
  have hbid : st.bills.find? (fun x => x.id == bill.id) = some bill :=
    find_self_of_nodup st.bills bill huniq hmem
  unfold resolveFolio at h
  split at h
  · rename_i f hf
    split at h
    · simp at h
    · rename_i ff hff
      rw [Prod.mk.injEq] at h
      obtain ⟨hst, hok⟩ := h
      rw [Except.ok.injEq, Prod.mk.injEq] at hok
      obtain ⟨hrb, hfol⟩ := hok
      subst hrb
      subst hfol
      subst hst
      refine ⟨rfl, rfl, rfl, rfl, rfl, rfl, rfl, rfl,
        fun rid0 hr => hr, hmem, huniq, le_refl _, ?_,
        fun b' hb' => Or.inr hb'⟩
      intro st0 b' hb'
      unfold resolveFolio
      simp [hf, hb', hff]
  · rename_i hfidNone
    split at h
    · rename_i fn hfn
      split at h
      · rename_i m hm
        rw [Prod.mk.injEq] at h
        obtain ⟨hst, hok⟩ := h
        rw [Except.ok.injEq, Prod.mk.injEq] at hok
        obtain ⟨hrb, hfol⟩ := hok
        subst hrb
        subst hfol
        subst hst
        refine ⟨rfl, rfl, rfl, rfl, rfl, rfl, rfl, rfl,
          fun rid0 hr => hr, hmem, huniq, le_refl _, ?_,
          fun b' hb' => Or.inr hb'⟩
        intro st0 b' hb'
        unfold resolveFolio
        simp [hfidNone, hfn, hb', hm]
      · rename_i hmNone
        unfold updateBillsTable at h
        rw [hbid] at h
        split at h
        · simp at h
        · rename_i existing hupd
          rw [Option.some.injEq] at hupd
          subst hupd
          simp only [Prod.mk.injEq, Except.ok.injEq] at h
          obtain ⟨hst, hrb, hfol⟩ := h
          subst hrb
          subst hfol
          subst hst
          refine ⟨by simp [applyBillUpdate], by simp [applyBillUpdate],
            by simp [applyBillUpdate], rfl, rfl, rfl, rfl, rfl, ?_, ?_, ?_,
            Nat.le_succ _, ?_, fun b' hb' => mem_replaceBy hb'⟩
          · intro rid0 hr
            exact find?_replaceBy_second _ _ _ _ _ hr (by simp)
              (by simpa [applyBillUpdate] using List.find?_some hr)
          · exact mem_replaceBy_self _ _ _ ⟨bill, hmem, by simp⟩
          · unfold UniqueBillIds
            exact UniqueBillIds_replaceBy st bill _ huniq
          · intro st0 b' hb'
            unfold resolveFolio
            simp only [hfidNone, hfn, hb', applyBillUpdate,
              Option.getD_some]
            rw [find?_append_of_none _ _ _ hmNone]
            simp
    · rename_i hfnNone
      split at h
      · rename_i dflt hdflt
        rw [Prod.mk.injEq] at h
        obtain ⟨hst, hok⟩ := h
        rw [Except.ok.injEq, Prod.mk.injEq] at hok
        obtain ⟨hrb, hfol⟩ := hok
        subst hrb
        subst hfol
        subst hst
        refine ⟨rfl, rfl, rfl, rfl, rfl, rfl, rfl, rfl,
          fun rid0 hr => hr, hmem, huniq, le_refl _, ?_,
          fun b' hb' => Or.inr hb'⟩
        intro st0 b' hb'
        unfold resolveFolio
        simp [hfidNone, hfnNone, hb', hdflt]
      · rename_i hheadNone
        unfold updateBillsTable at h
        rw [hbid] at h
        split at h
        · simp at h
        · rename_i existing hupd
          rw [Option.some.injEq] at hupd
          subst hupd
          simp only [Prod.mk.injEq, Except.ok.injEq] at h
          obtain ⟨hst, hrb, hfol⟩ := h
          subst hrb
          subst hfol
          subst hst
          refine ⟨by simp [applyBillUpdate], by simp [applyBillUpdate],
            by simp [applyBillUpdate], rfl, rfl, rfl, rfl, rfl, ?_, ?_, ?_,
            Nat.le_succ _, ?_, fun b' hb' => mem_replaceBy hb'⟩
          · intro rid0 hr
            exact find?_replaceBy_second _ _ _ _ _ hr (by simp)
              (by simpa [applyBillUpdate] using List.find?_some hr)
          · exact mem_replaceBy_self _ _ _ ⟨bill, hmem, by simp⟩
          · unfold UniqueBillIds
            exact UniqueBillIds_replaceBy st bill _ huniq
          · intro st0 b' hb'
            unfold resolveFolio
            simp only [hfidNone, hfnNone, hb', applyBillUpdate,
              Option.getD_some]
            simp [ensureDefaultFolio]

/-- When every target night already has a ROOM charge on the bill, the
charge loop posts nothing and leaves the id counter alone. -/
theorem roomChargesLoop_all_skip (bill : BillRecord) (f : String)
    (a t tt g : ℚ) (ts : Nat) (nights : List Int) :
    ∀ n, (∀ night ∈ nights, hasRoomChargeForDate bill night = true) →
      roomChargesLoop bill f a t tt g ts nights n = ([], n) := by
  induction nights with
  | nil =>
    intro n _
    simp [roomChargesLoop]
  | cons x xs ih =>
    intro n hcov
    have hx : hasRoomChargeForDate bill x = true := hcov x (by simp)
    have ih2 := ih n (fun night hn => hcov night (List.mem_cons_of_mem _ hn))
    simp [roomChargesLoop, hx, ih2]

/-- After the charge loop, every target night is covered: it either
already had a ROOM charge on the bill, or the loop emitted one for
it. -/
theorem roomChargesLoop_covers (bill : BillRecord) (f : String)
    (a t tt g : ℚ) (ts : Nat) (nights : List Int) :
    ∀ (n : Nat) (night : Int), night ∈ nights →
      hasRoomChargeForDate bill night = true ∨
      (roomChargesLoop bill f a t tt g ts nights n).1.any
        (fun c => c.metadata.nightDate == some night &&
          c.type == ChargeType.ROOM) = true := by
  induction nights with
  | nil =>
    intro n night hmem
    simp at hmem
  | cons x xs ih =>
    intro n night hmem
    by_cases hx : hasRoomChargeForDate bill x = true
    · rcases List.mem_cons.mp hmem with hxe | hxs
      · subst hxe
        exact Or.inl hx
      · rcases ih n night hxs with hl | hr
        · exact Or.inl hl
        · right
          simpa [roomChargesLoop, hx] using hr
    · rcases List.mem_cons.mp hmem with hxe | hxs
      · subst hxe
        right
        simp [roomChargesLoop, hx]
      · rcases ih (n + 1) night hxs with hl | hr
        · exact Or.inl hl
        · right
          simp only [roomChargesLoop]
          rw [if_neg (by simp [hx])]
          simp only [List.any_cons, Bool.or_eq_true]
          exact Or.inr hr

/-- When the reservation and its bill are already in place, the folio
resolution is a no-op, and every target night is already charged,
`postRoomCharges` changes nothing: it returns the stored bill, computed
totals and an empty `addedCharges`. -/
theorem postRoomCharges_noop (st : Db) (input : RoomChargeInput)
    (reservation : ReservationRecord) (bill : BillRecord) (folio : String)
    (hfind : st.reservations.find? (fun r => r.id == input.reservationId) =
      some reservation)
    (hbill : st.bills.find? (fun b => b.reservationId == reservation.id) =
      some bill)
    (hstay : (enumerateStayNights reservation.arrivalDate
      reservation.departureDate).isEmpty = false)
    (hwithin : ensureDatesWithinStay
      (targetNightsOf input.dates (enumerateStayNights reservation.arrivalDate
        reservation.departureDate))
      (enumerateStayNights reservation.arrivalDate
        reservation.departureDate) = .ok ())
    (hresolve : resolveFolio st bill input.folioId input.folioName =
      (st, .ok (bill, folio)))
    (hcovered : ∀ night ∈ targetNightsOf input.dates
      (enumerateStayNights reservation.arrivalDate reservation.departureDate),
      hasRoomChargeForDate bill night = true) :
    postRoomCharges st input =
      (st, .ok { bill := bill
                 payments := getPaymentsForReservation st reservation.id
                 totals := computeTotals bill
                   (getPaymentsForReservation st reservation.id)
                 addedCharges := [] }) := by
  have hloop : ∀ (a t tt g : ℚ) (ts n : Nat),
      roomChargesLoop bill folio a t tt g ts
        (targetNightsOf input.dates (enumerateStayNights
          reservation.arrivalDate reservation.departureDate)) n = ([], n) :=
    fun a t tt g ts n =>
      roomChargesLoop_all_skip bill folio a t tt g ts _ n hcovered
  unfold postRoomCharges
  simp only [hfind, ensureBillForReservation, hbill, hstay, hwithin,
    hresolve, hloop, toBillSummary]
  simp

/-- If the charge loop posted nothing, every target night was already
charged on the bill. -/
theorem roomChargesLoop_empty_covers (bill : BillRecord) (f : String)
    (a t tt g : ℚ) (ts : Nat) (nights : List Int) (n : Nat)
    (h : (roomChargesLoop bill f a t tt g ts nights n).1 = []) :
    ∀ night ∈ nights, hasRoomChargeForDate bill night = true := by
  intro night hmem
  rcases roomChargesLoop_covers bill f a t tt g ts nights n night hmem
    with hl | hr
  · exact hl
  · rw [h] at hr
    simp at hr

/-- C4: `postRoomCharges` is idempotent over nights.  After a successful
call, calling it again with the same input on the resulting state posts
nothing: the state is unchanged, the returned bill is the same record
(so its charge list, and in particular its ROOM charges, are identical
to those after the first call), `addedCharges` is empty, and the
charge-list length equals the length after the first call — nights that
already carry a ROOM charge (keyed by `metadata.nightDate`) are skipped
silently, never duplicated. -/
theorem postRoomCharges_idempotent (st : Db) (input : RoomChargeInput)
    (st1 : Db) (out1 : RoomChargesResult)
    (hfresh : ∀ b ∈ st.bills, goodId st.nextId b.id)
    (huniq : UniqueBillIds st)
    (h : postRoomCharges st input = (st1, .ok out1)) :
    ∃ out2 : RoomChargesResult,
      postRoomCharges st1 input = (st1, .ok out2) ∧
      out2.bill = out1.bill ∧
      out2.addedCharges = [] ∧
      out2.bill.charges.length = out1.bill.charges.length := by
  unfold postRoomCharges at h
  rcases hfind : st.reservations.find? (fun r => r.id == input.reservationId)
    with _ | reservation
  · simp only [hfind] at h
    simp at h
  · simp only [hfind] at h
    have hresid : reservation.id = input.reservationId := by
      have hp := List.find?_some hfind
      simpa using hp
    rcases hens : ensureBillForReservation st reservation with ⟨stA, e | bill⟩
    · simp only [hens] at h
      simp at h
    · simp only [hens] at h
      obtain ⟨hRid, hAfind, hAres, hApay, hAtax, hArooms, hAtime,
        _horig, hAuniq, hAfresh, hAmem, _hAcont, _hAnext⟩ :=
        ensureBill_spec st reservation stA bill hfresh huniq hens
      by_cases hstayE : (enumerateStayNights reservation.arrivalDate
          reservation.departureDate).isEmpty = true
      · rw [if_pos hstayE] at h
        simp at h
      · rw [if_neg hstayE] at h
        have hstayF : (enumerateStayNights reservation.arrivalDate
            reservation.departureDate).isEmpty = false := by
          simpa using hstayE
        rcases hwith : ensureDatesWithinStay
            (targetNightsOf input.dates (enumerateStayNights
              reservation.arrivalDate reservation.departureDate))
            (enumerateStayNights reservation.arrivalDate
              reservation.departureDate) with e | u
        · simp only [hwith] at h
          simp at h
        · cases u
          simp only [hwith] at h
          rcases hres : resolveFolio stA bill input.folioId input.folioName
            with ⟨stB, e | ⟨rb, folioId⟩⟩
          · simp only [hres] at h
            simp at h
          · simp only [hres] at h
            obtain ⟨hrbch, hrbid, hrbresid, hBres, hBpay, hBtax, hBrooms,
              hBtime, htrans, hrbmem, hBuniq, _hBnext, hstab, _hBcont⟩ :=
              resolveFolio_spec stA bill input.folioId input.folioName stB rb
                folioId hAuniq hAmem hres
            have hBfind : stB.bills.find?
                (fun b => b.reservationId == reservation.id) = some rb :=
              htrans reservation.id hAfind
            have hfindB2 : stB.reservations.find?
                (fun r => r.id == input.reservationId) = some reservation := by
              rw [hBres, hAres]
              exact hfind
            by_cases hloopE : (roomChargesLoop rb folioId
                (input.nightlyRate.getD reservation.nightlyRate)
                (calculateTax stB.taxes
                  (input.nightlyRate.getD reservation.nightlyRate)).1
                (calculateTax stB.taxes
                  (input.nightlyRate.getD reservation.nightlyRate)).2.1
                (calculateTax stB.taxes
                  (input.nightlyRate.getD reservation.nightlyRate)).2.2
                stB.time
                (targetNightsOf input.dates (enumerateStayNights
                  reservation.arrivalDate reservation.departureDate))
                stB.nextId).1.isEmpty = true
            · -- all target nights already charged: the first call was
              -- itself a no-op
              rw [if_pos hloopE] at h
              rw [Prod.mk.injEq] at h
              obtain ⟨hst, hok⟩ := h
              rw [Except.ok.injEq] at hok
              subst hst
              subst hok
              have hcov := roomChargesLoop_empty_covers _ _ _ _ _ _ _ _ _
                (by simpa using hloopE)
              have hresolve2 := hstab stB rb rfl
              have hnoop := postRoomCharges_noop stB input reservation rb
                folioId hfindB2 hBfind hstayF hwith hresolve2 hcov
              refine ⟨_, hnoop, ?_, ?_, ?_⟩ <;> simp [toBillSummary]
            · -- charges were appended: the second call finds them and
              -- skips every night
              rw [if_neg hloopE] at h
              have hBfindId : stB.bills.find?
                  (fun x => x.id == rb.id) = some rb :=
                find_self_of_nodup stB.bills rb hBuniq hrbmem
              have hupdAll : ∀ u : BillUpdate,
                  updateBillsTable stB.bills rb.id u =
                    .ok (applyBillUpdate rb u,
                      replaceBy (fun b => b.id == rb.id)
                        (applyBillUpdate rb u) stB.bills) := by
                intro u
                unfold updateBillsTable
                rw [hBfindId]
              have hfindR : stB.reservations.find?
                  (fun r => r.id == reservation.id) = some reservation := by
                rw [hBres, hAres, hresid]
                exact hfind
              have hsyncAll : ∀ (bills' : List BillRecord) (nid : Nat)
                  (b : BillRecord),
                  syncReservationBilling
                    { stB with bills := bills', nextId := nid }
                    reservation b =
                  ({ stB with
                      bills := bills'
                      nextId := nid
                      reservations := replaceBy
                        (fun r => r.id == reservation.id)
                        (applyReservationUpdate reservation
                          { billing := some
                              { currency := reservation.billing.currency
                                totalAmount := (computeTotals b
                                  (getPaymentsForReservation stB
                                    reservation.id)).grandTotal
                                balanceDue := (computeTotals b
                                  (getPaymentsForReservation stB
                                    reservation.id)).balanceDue
                                charges := b.charges.map (fun c =>
                                  { description := c.description
                                    amount := c.totalAmount }) } })
                        stB.reservations },
                    .ok (computeTotals b
                      (getPaymentsForReservation stB reservation.id))) := by
                intro bills' nid b
                unfold syncReservationBilling updateReservationsTable
                simp only [hfindR]
                rfl
              simp only [hupdAll, hsyncAll] at h
              rw [Prod.mk.injEq] at h
              obtain ⟨hst, hok⟩ := h
              rw [Except.ok.injEq] at hok
              subst hst
              subst hok
              refine ⟨?o, ?heq, ?h2, ?h3, ?h4⟩
              case heq =>
                refine postRoomCharges_noop _ input ?res ?bi ?fo
                  ?g1 ?g2 ?g3 ?g4 ?g5 ?g6
                case g1 =>
                  refine find?_replaceBy_second _ _ _ _ _ hfindB2 ?p1 ?p2
                  case p1 => simp
                  case p2 => simp [applyReservationUpdate, hresid]
                case g2 =>
                  refine find?_replaceBy_second _ _ _ _ _ hBfind ?q1 ?q2
                  case q1 => simp
                  case q2 =>
                    simp [applyBillUpdate, applyReservationUpdate,
                      hrbresid, hRid]
                case g3 => exact hstayF
                case g4 => exact hwith
                case g5 =>
                  refine hstab _ _ ?r1
                  case r1 => simp [applyBillUpdate]
                case g6 =>
                  intro night hnight
                  have hnight' : night ∈ targetNightsOf input.dates
                      (enumerateStayNights reservation.arrivalDate
                        reservation.departureDate) := hnight
                  have hdisj := roomChargesLoop_covers rb folioId
                    (input.nightlyRate.getD reservation.nightlyRate)
                    (calculateTax stB.taxes
                      (input.nightlyRate.getD reservation.nightlyRate)).1
                    (calculateTax stB.taxes
                      (input.nightlyRate.getD reservation.nightlyRate)).2.1
                    (calculateTax stB.taxes
                      (input.nightlyRate.getD reservation.nightlyRate)).2.2
                    stB.time
                    (targetNightsOf input.dates (enumerateStayNights
                      reservation.arrivalDate reservation.departureDate))
                    stB.nextId night hnight'
                  unfold hasRoomChargeForDate
                  have hch : ∀ (u : BillUpdate) (cs : List ChargeRecord),
                      u.charges = some cs →
                      (applyBillUpdate rb u).charges = cs :=
                    fun u cs hu => by simp [applyBillUpdate, hu]
                  rw [hch _ _ rfl, List.any_append]
                  rcases hdisj with hl | hr
                  · unfold hasRoomChargeForDate at hl
                    simp [hl]
                  · simp [hr]
              case h2 => simp
              case h3 => simp
              case h4 => simp

/-- Concrete evaluation of `postRoomCharges` on the C4 witness store:
the single stay night is already charged, so the call is a no-op. -/
theorem postRoomChargesC4_eval :
    postRoomCharges dbC4 inputC4 = (dbC4, .ok outC4) := by
  have h100 : roundCurrency (100 : ℚ) = 100 := by
    norm_num [roundCurrency, round_eq]
  have h0 : roundCurrency (0 : ℚ) = 0 := by
    norm_num [roundCurrency, round_eq]
  simp +decide [postRoomCharges, dbC4, inputC4, resC4, resC1, billC4,
    chargeC4, folioC4, ensureBillForReservation, enumerateStayNights,
    targetNightsOf, ensureDatesWithinStay, resolveFolio, truthyOpt,
    roomChargesLoop, hasRoomChargeForDate, toBillSummary,
    getPaymentsForReservation, computeTotals, outC4, h100, h0]

/-- Witness for the C4 theorem at the concrete store: the hypotheses
hold and a second call is a no-op. -/
theorem postRoomCharges_idempotent_witness :
    (∀ b ∈ dbC4.bills, goodId dbC4.nextId b.id) ∧ UniqueBillIds dbC4 ∧
    ∃ out2 : RoomChargesResult,
      postRoomCharges dbC4 inputC4 = (dbC4, .ok out2) ∧
      out2.bill = outC4.bill ∧
      out2.addedCharges = [] ∧
      out2.bill.charges.length = outC4.bill.charges.length := by
  have hfresh : ∀ b ∈ dbC4.bills, goodId dbC4.nextId b.id := by
    intro b hb
    simp [dbC4] at hb
    subst hb
    intro hg
    simp [billC4, isGenId] at hg
  have huniq : UniqueBillIds dbC4 := by
    unfold UniqueBillIds
    decide
  exact ⟨hfresh, huniq, postRoomCharges_idempotent dbC4 inputC4 dbC4 outC4
    hfresh huniq postRoomChargesC4_eval⟩

/-- An amount is at currency precision exactly when it is an integer
number of hundredths. -/
theorem IsRounded_iff (q : ℚ) : IsRounded q ↔ ∃ k : ℤ, q = (k : ℚ) / 100 := by
  constructor
  · intro h
    exact ⟨round (q * 100), h.symm⟩
  · rintro ⟨k, rfl⟩
    unfold IsRounded roundCurrency
    rw [div_mul_cancel₀ _ (by norm_num : (100 : ℚ) ≠ 0), round_intCast]

/-- Rounding lands at currency precision. -/
theorem roundCurrency_IsRounded (q : ℚ) : IsRounded (roundCurrency q) := by
  rw [IsRounded_iff]
  exact ⟨round (q * 100), rfl⟩

/-- Zero is at currency precision. -/
theorem IsRounded_zero : IsRounded 0 := by
  rw [IsRounded_iff]
  exact ⟨0, by norm_num⟩

/-- Currency precision is closed under addition. -/
theorem IsRounded_add {a b : ℚ} (ha : IsRounded a) (hb : IsRounded b) :
    IsRounded (a + b) := by
  rw [IsRounded_iff] at ha hb ⊢
  obtain ⟨j, rfl⟩ := ha
  obtain ⟨k, rfl⟩ := hb
  exact ⟨j + k, by push_cast; rw [div_add_div_same]⟩

/-- Currency precision is closed under list sums. -/
theorem IsRounded_sum (l : List ℚ) (h : ∀ x ∈ l, IsRounded x) :
    IsRounded l.sum := by
  induction l with
  | nil => simpa using IsRounded_zero
  | cons x xs ih =>
    rw [List.sum_cons]
    exact IsRounded_add (h x (by simp))
      (ih (fun y hy => h y (List.mem_cons_of_mem _ hy)))

/-- On a bill whose charge totals and payments are at currency precision
(as the ledger creates them), `computeTotals` reduces to the plain sums,
and `balanceDue` is exactly the rounded difference of grand total and
payments total. -/
theorem computeTotals_spec (bill : BillRecord) (payments : List PaymentRecord)
    (hc : ∀ c ∈ bill.charges, IsRounded c.totalAmount)
    (hp : ∀ p ∈ payments, IsRounded p.amount) :
    (computeTotals bill payments).grandTotal =
      bill.charges.foldl (fun sum c => sum + c.totalAmount) 0 ∧
    (computeTotals bill payments).paymentsTotal =
      payments.foldl (fun sum p => sum + p.amount) 0 ∧
    (computeTotals bill payments).balanceDue =
      roundCurrency
        (bill.charges.foldl (fun sum c => sum + c.totalAmount) 0 -
          payments.foldl (fun sum p => sum + p.amount) 0) := by
  have hg : roundCurrency
      (bill.charges.foldl (fun sum c => sum + c.totalAmount) 0) =
      bill.charges.foldl (fun sum c => sum + c.totalAmount) 0 := by
    rw [foldl_add_eq_sum_map, zero_add]
    refine IsRounded_sum _ ?_
    intro x hx
    rw [List.mem_map] at hx
    obtain ⟨c, hcm, rfl⟩ := hx
    exact hc c hcm
  have hq : roundCurrency
      (payments.foldl (fun sum p => sum + p.amount) 0) =
      payments.foldl (fun sum p => sum + p.amount) 0 := by
    rw [foldl_add_eq_sum_map, zero_add]
    refine IsRounded_sum _ ?_
    intro x hx
    rw [List.mem_map] at hx
    obtain ⟨p, hpm, rfl⟩ := hx
    exact hp p hpm
  refine ⟨?_, ?_, ?_⟩
  · simp only [computeTotals]
    exact hg
  · simp only [computeTotals]
    exact hq
  · simp only [computeTotals]
    rw [hg, hq]

/-- The charges key of a bill overwrite. -/
theorem applyBillUpdate_charges (b : BillRecord) (u : BillUpdate)
    (cs : List ChargeRecord) (hu : u.charges = some cs) :
    (applyBillUpdate b u).charges = cs := by
  simp [applyBillUpdate, hu]

/-- The total amount computed by `calculateTax` is rounded. -/
theorem calculateTax_total_IsRounded (t : Option TaxConfig) (a : ℚ) :
    IsRounded (calculateTax t a).2.1 :=
  roundCurrency_IsRounded _

/-- Every charge posted by the room-charge loop carries the hoisted
`totalAmount`. -/
theorem roomChargesLoop_totalAmount (bill : BillRecord) (f : String)
    (a t tt g : ℚ) (ts : Nat) (nights : List Int) :
    ∀ n, ∀ c ∈ (roomChargesLoop bill f a t tt g ts nights n).1,
      c.totalAmount = tt := by
  induction nights with
  | nil =>
    intro n c hc
    simp [roomChargesLoop] at hc
  | cons x xs ih =>
    intro n c hc
    by_cases hx : hasRoomChargeForDate bill x = true
    · simp only [roomChargesLoop] at hc
      rw [if_pos hx] at hc
      exact ih n c hc
    · simp only [roomChargesLoop] at hc
      rw [if_neg hx] at hc
      simp only [List.mem_cons] at hc
      rcases hc with hc | hc
      · subst hc
        rfl
      · exact ih (n + 1) c hc

/-- Success shape of `syncReservationBilling`: the written-back totals
are `computeTotals` of the bill and the reservation's payments, nothing
but the reservation table changes, and the stored reservation's billing
snapshot carries exactly the computed grand total and balance due. -/
theorem syncReservationBilling_spec (st : Db) (r : ReservationRecord)
    (bill : BillRecord) (st1 : Db) (totals : BillTotals)
    (h : syncReservationBilling st r bill = (st1, .ok totals)) :
    totals = computeTotals bill (getPaymentsForReservation st1 r.id) ∧
    st1.bills = st.bills ∧
    st1.payments = st.payments ∧
    st1.taxes = st.taxes ∧
    st1.rooms = st.rooms ∧
    st1.time = st.time ∧
    st1.nextId = st.nextId ∧
    ∃ r', st1.reservations.find? (fun x => x.id == r.id) = some r' ∧
      r'.billing.totalAmount = totals.grandTotal ∧
      r'.billing.balanceDue = totals.balanceDue ∧
      r'.billing.charges = bill.charges.map (fun c =>
        { description := c.description, amount := c.totalAmount }) := by
  unfold syncReservationBilling updateReservationsTable at h
  rcases hfx : st.reservations.find? (fun x => x.id == r.id)
    with _ | existing
  · simp only [hfx] at h
    simp at h
  · simp only [hfx] at h
    rw [Prod.mk.injEq] at h
    obtain ⟨hst, hok⟩ := h
    rw [Except.ok.injEq] at hok
    subst hok
    subst hst
    refine ⟨rfl, rfl, rfl, rfl, rfl, rfl, rfl, ?_⟩
    refine ⟨_, find?_replaceBy_second _ _ _ _ _ hfx
      (by simpa using List.find?_some hfx)
      (by simpa [applyReservationUpdate] using List.find?_some hfx),
      ?_, ?_, ?_⟩
    · simp [applyReservationUpdate]
    · simp [applyReservationUpdate]
    · simp [applyReservationUpdate]

/-- The settle loop preserves the store invariants: payment records are
inserted with rounded amounts, bills are only folio-written (charges
pass through), reservations are untouched. -/
theorem settleLoop_wf (reservation : ReservationRecord) :
    ∀ (ps : List SettlementPaymentInput) (st : Db) (bl : BillRecord)
      (acc : List PaymentRecord) (stL : Db) (cb : BillRecord)
      (created : List PaymentRecord),
      WellFormedDb st → UniqueBillIds st → bl ∈ st.bills →
      settleLoop reservation st bl acc ps = (stL, .ok (cb, created)) →
      WellFormedDb stL ∧ UniqueBillIds stL ∧ cb ∈ stL.bills ∧
      stL.reservations = st.reservations ∧
      cb.charges = bl.charges := by
  intro ps
  induction ps with
  | nil =>
    intro st bl acc stL cb created hwf huniq hmem h
    simp only [settleLoop] at h
    rw [Prod.mk.injEq] at h
    obtain ⟨hst, hok⟩ := h
    rw [Except.ok.injEq, Prod.mk.injEq] at hok
    obtain ⟨hcb, hacc⟩ := hok
    subst hst
    subst hcb
    exact ⟨hwf, huniq, hmem, rfl, rfl⟩
  | cons p rest ih =>
    intro st bl acc stL cb created hwf huniq hmem h
    simp only [settleLoop] at h
    by_cases hamt : p.amount ≤ 0
    · rw [if_pos hamt] at h
      simp at h
    · rw [if_neg hamt] at h
      rcases hres : resolveFolio st bl p.folioId p.folioName
        with ⟨st1, e | ⟨rb, folio⟩⟩
      · simp only [hres] at h
        simp at h
      · simp only [hres] at h
        obtain ⟨hrbch, hrbid, hrbresid, h1res, h1pay, h1tax, h1rooms,
          h1time, htrans, hrbmem, h1uniq, h1next, hstab, h1cont⟩ :=
          resolveFolio_spec st bl p.folioId p.folioName st1 rb folio
            huniq hmem hres
        have h1wf : WellFormedDb st1 := by
          constructor
          · intro b hb
            rcases h1cont b hb with hbe | hbm
            · subst hbe
              rw [hrbch]
              exact hwf.1 bl hmem
            · exact hwf.1 b hbm
          · intro q hq
            rw [h1pay] at hq
            exact hwf.2 q hq
        split at h
        · simp at h
        · rename_i payments1 hins
          unfold insertPayment at hins
          split at hins
          · simp at hins
          · rw [Except.ok.injEq] at hins
            have h2wf : WellFormedDb
                { st1 with payments := payments1
                           nextId := st1.nextId + 1 } := by
              constructor
              · intro b hb
                exact h1wf.1 b hb
              · intro q hq
                have hq2 : q ∈ payments1 := hq
                rw [← hins] at hq2
                rcases List.mem_append.mp hq2 with hq3 | hq3
                · exact h1wf.2 q hq3
                · rw [List.mem_singleton] at hq3
                  subst hq3
                  exact roundCurrency_IsRounded _
            have h2uniq : UniqueBillIds
                { st1 with payments := payments1
                           nextId := st1.nextId + 1 } := h1uniq
            obtain ⟨hw, hu, hm, hr, hc⟩ :=
              ih _ _ _ _ _ _ h2wf h2uniq hrbmem h
            refine ⟨hw, hu, hm, ?_, ?_⟩
            · rw [hr]
              exact h1res
            · rw [hc]
              exact hrbch

/-- `postRoomCharges` keeps the store well formed, and the totals it
returns are the plain sums with `balanceDue` the rounded difference. -/
theorem postRoomCharges_wf_spec (st : Db) (input : RoomChargeInput)
    (st1 : Db) (out : RoomChargesResult)
    (hwf : WellFormedDb st)
    (hfresh : ∀ b ∈ st.bills, goodId st.nextId b.id)
    (huniq : UniqueBillIds st)
    (h : postRoomCharges st input = (st1, .ok out)) :
    WellFormedDb st1 ∧
    out.totals.grandTotal =
      out.bill.charges.foldl (fun sum c => sum + c.totalAmount) 0 ∧
    out.totals.paymentsTotal =
      out.payments.foldl (fun sum p => sum + p.amount) 0 ∧
    out.totals.balanceDue =
      roundCurrency
        (out.bill.charges.foldl (fun sum c => sum + c.totalAmount) 0 -
          out.payments.foldl (fun sum p => sum + p.amount) 0) := by
  unfold postRoomCharges at h
  rcases hfind : st.reservations.find? (fun r => r.id == input.reservationId)
    with _ | reservation
  · simp only [hfind] at h
    simp at h
  · simp only [hfind] at h
    rcases hens : ensureBillForReservation st reservation with ⟨stA, e | bill⟩
    · simp only [hens] at h
      simp at h
    · simp only [hens] at h
      obtain ⟨hRid, hAfind, hAres, hApay, hAtax, hArooms, hAtime,
        hAcont0, hAuniq, hAfresh, hAmem, hAcont, _hAnext⟩ :=
        ensureBill_spec st reservation stA bill hfresh huniq hens
      have hwfA : WellFormedDb stA := by
        constructor
        · intro b hb
          rcases hAcont b hb with hbm | hbc
          · exact hwf.1 b hbm
          · intro c hc
            rw [hbc] at hc
            simp at hc
        · intro q hq
          rw [hApay] at hq
          exact hwf.2 q hq
      by_cases hstayE : (enumerateStayNights reservation.arrivalDate
          reservation.departureDate).isEmpty = true
      · rw [if_pos hstayE] at h
        simp at h
      · rw [if_neg hstayE] at h
        rcases hwith : ensureDatesWithinStay
            (targetNightsOf input.dates (enumerateStayNights
              reservation.arrivalDate reservation.departureDate))
            (enumerateStayNights reservation.arrivalDate
              reservation.departureDate) with e | u
        · simp only [hwith] at h
          simp at h
        · cases u
          simp only [hwith] at h
          rcases hres : resolveFolio stA bill input.folioId input.folioName
            with ⟨stB, e | ⟨rb, folioId⟩⟩
          · simp only [hres] at h
            simp at h
          · simp only [hres] at h
            obtain ⟨hrbch, hrbid, hrbresid, hBres, hBpay, hBtax, hBrooms,
              hBtime, htrans, hrbmem, hBuniq, _hBnext, hstab, hBcont⟩ :=
              resolveFolio_spec stA bill input.folioId input.folioName stB rb
                folioId hAuniq hAmem hres
            have hcrb : ∀ c ∈ rb.charges, IsRounded c.totalAmount := by
              intro c hc
              rw [hrbch] at hc
              exact hwfA.1 bill hAmem c hc
            have hwfB : WellFormedDb stB := by
              constructor
              · intro b hb
                rcases hBcont b hb with hbe | hbm
                · subst hbe
                  exact hcrb
                · exact hwfA.1 b hbm
              · intro q hq
                rw [hBpay] at hq
                exact hwfA.2 q hq
            by_cases hloopE : (roomChargesLoop rb folioId
                (input.nightlyRate.getD reservation.nightlyRate)
                (calculateTax stB.taxes
                  (input.nightlyRate.getD reservation.nightlyRate)).1
                (calculateTax stB.taxes
                  (input.nightlyRate.getD reservation.nightlyRate)).2.1
                (calculateTax stB.taxes
                  (input.nightlyRate.getD reservation.nightlyRate)).2.2
                stB.time
                (targetNightsOf input.dates (enumerateStayNights
                  reservation.arrivalDate reservation.departureDate))
                stB.nextId).1.isEmpty = true
            · rw [if_pos hloopE] at h
              rw [Prod.mk.injEq] at h
              obtain ⟨hst, hok⟩ := h
              rw [Except.ok.injEq] at hok
              subst hst
              subst hok
              have hppay : ∀ q ∈ getPaymentsForReservation stB
                  reservation.id, IsRounded q.amount := by
                intro q hq
                unfold getPaymentsForReservation at hq
                exact hwfB.2 q (List.mem_of_mem_filter hq)
              obtain ⟨hg, hp2, hb2⟩ :=
                computeTotals_spec rb _ hcrb hppay
              refine ⟨hwfB, ?_, ?_, ?_⟩
              · simpa [toBillSummary] using hg
              · simpa [toBillSummary] using hp2
              · simpa [toBillSummary] using hb2
            · rw [if_neg hloopE] at h
              have hBfindId : stB.bills.find?
                  (fun x => x.id == rb.id) = some rb :=
                find_self_of_nodup stB.bills rb hBuniq hrbmem
              have hupdAll : ∀ u : BillUpdate,
                  updateBillsTable stB.bills rb.id u =
                    .ok (applyBillUpdate rb u,
                      replaceBy (fun b => b.id == rb.id)
                        (applyBillUpdate rb u) stB.bills) := by
                intro u
                unfold updateBillsTable
                rw [hBfindId]
              simp only [hupdAll] at h
              split at h
              · simp at h
              · rename_i st4 totals hsync
                rw [Prod.mk.injEq] at h
                obtain ⟨hst, hok⟩ := h
                rw [Except.ok.injEq] at hok
                subst hst
                subst hok
                obtain ⟨htot, hb4, hp4, _htax4, _hrooms4, _htime4, _hnid4,
                  _hsnap4⟩ :=
                  syncReservationBilling_spec _ reservation _ st4 totals hsync
                have hwf4 : WellFormedDb st4 := by
                  constructor
                  · intro b hb
                    rw [hb4] at hb
                    rcases mem_replaceBy hb with hbe | hbm
                    · subst hbe
                      intro c hc
                      rw [applyBillUpdate_charges _ _ _ rfl] at hc
                      rcases List.mem_append.mp hc with hc2 | hc2
                      · exact hcrb c hc2
                      · rw [roomChargesLoop_totalAmount _ _ _ _ _ _ _ _ _
                          c hc2]
                        exact calculateTax_total_IsRounded _ _
                    · exact hwfB.1 b hbm
                  · intro q hq
                    rw [hp4] at hq
                    exact hwfB.2 q hq
                have hpay4 : ∀ q ∈ getPaymentsForReservation st4
                    reservation.id, IsRounded q.amount := by
                  intro q hq
                  unfold getPaymentsForReservation at hq
                  exact hwf4.2 q (List.mem_of_mem_filter hq)
                refine ⟨hwf4, ?_, ?_, ?_⟩
                · rw [htot]
                  refine (computeTotals_spec _ _ ?_ hpay4).1
                  intro c hc
                  rw [applyBillUpdate_charges _ _ _ rfl] at hc
                  rcases List.mem_append.mp hc with hc2 | hc2
                  · exact hcrb c hc2
                  · rw [roomChargesLoop_totalAmount _ _ _ _ _ _ _ _ _ c hc2]
                    exact calculateTax_total_IsRounded _ _
                · rw [htot]
                  refine (computeTotals_spec _ _ ?_ hpay4).2.1
                  intro c hc
                  rw [applyBillUpdate_charges _ _ _ rfl] at hc
                  rcases List.mem_append.mp hc with hc2 | hc2
                  · exact hcrb c hc2
                  · rw [roomChargesLoop_totalAmount _ _ _ _ _ _ _ _ _ c hc2]
                    exact calculateTax_total_IsRounded _ _
                · rw [htot]
                  refine (computeTotals_spec _ _ ?_ hpay4).2.2
                  intro c hc
                  rw [applyBillUpdate_charges _ _ _ rfl] at hc
                  rcases List.mem_append.mp hc with hc2 | hc2
                  · exact hcrb c hc2
                  · rw [roomChargesLoop_totalAmount _ _ _ _ _ _ _ _ _ c hc2]
                    exact calculateTax_total_IsRounded _ _

/-- `addAddonCharge` keeps the store well formed, and the totals it
returns are the plain sums with `balanceDue` the rounded difference. -/
theorem addAddonCharge_wf_spec (st : Db) (input : AddonChargeInput)
    (st1 : Db) (out : AddonChargeResult)
    (hwf : WellFormedDb st)
    (hfresh : ∀ b ∈ st.bills, goodId st.nextId b.id)
    (huniq : UniqueBillIds st)
    (h : addAddonCharge st input = (st1, .ok out)) :
    WellFormedDb st1 ∧
    out.totals.grandTotal =
      out.bill.charges.foldl (fun sum c => sum + c.totalAmount) 0 ∧
    out.totals.paymentsTotal =
      out.payments.foldl (fun sum p => sum + p.amount) 0 ∧
    out.totals.balanceDue =
      roundCurrency
        (out.bill.charges.foldl (fun sum c => sum + c.totalAmount) 0 -
          out.payments.foldl (fun sum p => sum + p.amount) 0) := by
  unfold addAddonCharge at h
  by_cases hamt : input.amount ≤ 0
  · rw [if_pos hamt] at h
    simp at h
  · rw [if_neg hamt] at h
    rcases hfind : st.reservations.find?
        (fun r => r.id == input.reservationId) with _ | reservation
    · simp only [hfind] at h
      simp at h
    · simp only [hfind] at h
      rcases hens : ensureBillForReservation st reservation
        with ⟨stA, e | bill⟩
      · simp only [hens] at h
        simp at h
      · simp only [hens] at h
        obtain ⟨hRid, hAfind, hAres, hApay, hAtax, hArooms, hAtime,
          hAcont0, hAuniq, hAfresh, hAmem, hAcont, _hAnext⟩ :=
          ensureBill_spec st reservation stA bill hfresh huniq hens
        have hwfA : WellFormedDb stA := by
          constructor
          · intro b hb
            rcases hAcont b hb with hbm | hbc
            · exact hwf.1 b hbm
            · intro c hc
              rw [hbc] at hc
              simp at hc
          · intro q hq
            rw [hApay] at hq
            exact hwf.2 q hq
        rcases hres : resolveFolio stA bill input.folioId input.folioName
          with ⟨stB, e | ⟨rb, folioId⟩⟩
        · simp only [hres] at h
          simp at h
        · simp only [hres] at h
          obtain ⟨hrbch, hrbid, hrbresid, hBres, hBpay, hBtax, hBrooms,
            hBtime, htrans, hrbmem, hBuniq, _hBnext, hstab, hBcont⟩ :=
            resolveFolio_spec stA bill input.folioId input.folioName stB rb
              folioId hAuniq hAmem hres
          have hcrb : ∀ c ∈ rb.charges, IsRounded c.totalAmount := by
            intro c hc
            rw [hrbch] at hc
            exact hwfA.1 bill hAmem c hc
          have hwfB : WellFormedDb stB := by
            constructor
            · intro b hb
              rcases hBcont b hb with hbe | hbm
              · subst hbe
                exact hcrb
              · exact hwfA.1 b hbm
            · intro q hq
              rw [hBpay] at hq
              exact hwfA.2 q hq
          have hBfindId : stB.bills.find?
              (fun x => x.id == rb.id) = some rb :=
            find_self_of_nodup stB.bills rb hBuniq hrbmem
          have hupdAll : ∀ u : BillUpdate,
              updateBillsTable stB.bills rb.id u =
                .ok (applyBillUpdate rb u,
                  replaceBy (fun b => b.id == rb.id)
                    (applyBillUpdate rb u) stB.bills) := by
            intro u
            unfold updateBillsTable
            rw [hBfindId]
          simp only [hupdAll] at h
          split at h
          · simp at h
          · rename_i st4 totals hsync
            rw [Prod.mk.injEq] at h
            obtain ⟨hst, hok⟩ := h
            rw [Except.ok.injEq] at hok
            subst hst
            subst hok
            obtain ⟨htot, hb4, hp4, _htax4, _hrooms4, _htime4, _hnid4,
              _hsnap4⟩ :=
              syncReservationBilling_spec _ reservation _ st4 totals hsync
            have hwf4 : WellFormedDb st4 := by
              constructor
              · intro b hb
                rw [hb4] at hb
                rcases mem_replaceBy hb with hbe | hbm
                · subst hbe
                  intro c hc
                  rw [applyBillUpdate_charges _ _ _ rfl] at hc
                  rcases List.mem_append.mp hc with hc2 | hc2
                  · exact hcrb c hc2
                  · rw [List.mem_singleton] at hc2
                    subst hc2
                    exact calculateTax_total_IsRounded _ _
                · exact hwfB.1 b hbm
              · intro q hq
                rw [hp4] at hq
                exact hwfB.2 q hq
            have hpay4 : ∀ q ∈ getPaymentsForReservation st4
                reservation.id, IsRounded q.amount := by
              intro q hq
              unfold getPaymentsForReservation at hq
              exact hwf4.2 q (List.mem_of_mem_filter hq)
            have hcu : ∀ c ∈ (applyBillUpdate rb
                { charges := some (rb.charges ++
                    [{ id := genId stB.nextId
                       folioId := folioId
                       type := .ADDON
                       description := input.description
                       amount := input.amount *
                         (match input.quantity with
                          | some q => if 0 < q then q else 1
                          | none => 1)
                       taxAmount := (calculateTax stB.taxes
                         (input.amount *
                           (match input.quantity with
                            | some q => if 0 < q then q else 1
                            | none => 1))).1
                       totalAmount := (calculateTax stB.taxes
                         (input.amount *
                           (match input.quantity with
                            | some q => if 0 < q then q else 1
                            | none => 1))).2.1
                       postedAt := stB.time
                       metadata := mergeMetadata
                         { quantity := some
                             (match input.quantity with
                              | some q => if 0 < q then q else 1
                              | none => 1)
                           gstPercent := some (calculateTax stB.taxes
                             (input.amount *
                               (match input.quantity with
                                | some q => if 0 < q then q else 1
                                | none => 1))).2.2 }
                         input.metadata }])
                  updatedAt := some stB.time }).charges,
                IsRounded c.totalAmount := by
              intro c hc
              rw [applyBillUpdate_charges _ _ _ rfl] at hc
              rcases List.mem_append.mp hc with hc2 | hc2
              · exact hcrb c hc2
              · rw [List.mem_singleton] at hc2
                subst hc2
                exact calculateTax_total_IsRounded _ _
            refine ⟨hwf4, ?_, ?_, ?_⟩
            · rw [htot]
              exact (computeTotals_spec _ _ hcu hpay4).1
            · rw [htot]
              exact (computeTotals_spec _ _ hcu hpay4).2.1
            · rw [htot]
              exact (computeTotals_spec _ _ hcu hpay4).2.2

/-- `settleBill` keeps the store well formed, and the totals it returns
are the plain sums with `balanceDue` the rounded difference. -/
theorem settleBill_wf_spec (st : Db) (input : SettleBillInput)
    (st1 : Db) (out : SettleBillResult)
    (hwf : WellFormedDb st)
    (hfresh : ∀ b ∈ st.bills, goodId st.nextId b.id)
    (huniq : UniqueBillIds st)
    (h : settleBill st input = (st1, .ok out)) :
    WellFormedDb st1 ∧
    out.totals.grandTotal =
      out.bill.charges.foldl (fun sum c => sum + c.totalAmount) 0 ∧
    out.totals.paymentsTotal =
      out.payments.foldl (fun sum p => sum + p.amount) 0 ∧
    out.totals.balanceDue =
      roundCurrency
        (out.bill.charges.foldl (fun sum c => sum + c.totalAmount) 0 -
          out.payments.foldl (fun sum p => sum + p.amount) 0) := by
  unfold settleBill at h
  by_cases hempty : input.payments.isEmpty = true
  · rw [if_pos hempty] at h
    simp at h
  · rw [if_neg hempty] at h
    rcases hfind : st.reservations.find?
        (fun r => r.id == input.reservationId) with _ | reservation
    · simp only [hfind] at h
      simp at h
    · simp only [hfind] at h
      rcases hens : ensureBillForReservation st reservation
        with ⟨stA, e | bill⟩
      · simp only [hens] at h
        simp at h
      · simp only [hens] at h
        obtain ⟨hRid, hAfind, hAres, hApay, hAtax, hArooms, hAtime,
          hAcont0, hAuniq, hAfresh, hAmem, hAcont, _hAnext⟩ :=
          ensureBill_spec st reservation stA bill hfresh huniq hens
        have hwfA : WellFormedDb stA := by
          constructor
          · intro b hb
            rcases hAcont b hb with hbm | hbc
            · exact hwf.1 b hbm
            · intro c hc
              rw [hbc] at hc
              simp at hc
          · intro q hq
            rw [hApay] at hq
            exact hwf.2 q hq
        rcases hloop : settleLoop reservation stA bill [] input.payments
          with ⟨st2, e | ⟨currentBill, created⟩⟩
        · simp only [hloop] at h
          simp at h
        · simp only [hloop] at h
          obtain ⟨hw2, hu2, hm2, hr2, hc2⟩ :=
            settleLoop_wf reservation input.payments stA bill [] st2
              currentBill created hwfA hAuniq hAmem hloop
          split at h
          · simp at h
          · rename_i st3 totals hsync
            rw [Prod.mk.injEq] at h
            obtain ⟨hst, hok⟩ := h
            rw [Except.ok.injEq] at hok
            subst hst
            subst hok
            obtain ⟨htot, hb3, hp3, _htax3, _hrooms3, _htime3, _hnid3,
              _hsnap3⟩ :=
              syncReservationBilling_spec _ reservation _ st3 totals hsync
            have hwf3 : WellFormedDb st3 := by
              constructor
              · intro b hb
                rw [hb3] at hb
                exact hw2.1 b hb
              · intro q hq
                rw [hp3] at hq
                exact hw2.2 q hq
            have hpay3 : ∀ q ∈ getPaymentsForReservation st3
                reservation.id, IsRounded q.amount := by
              intro q hq
              unfold getPaymentsForReservation at hq
              exact hwf3.2 q (List.mem_of_mem_filter hq)
            have hcb : ∀ c ∈ currentBill.charges, IsRounded c.totalAmount := by
              intro c hc
              rw [hc2] at hc
              exact hwfA.1 bill hAmem c hc
            refine ⟨hwf3, ?_, ?_, ?_⟩
            · rw [htot]
              exact (computeTotals_spec _ _ hcb hpay3).1
            · rw [htot]
              exact (computeTotals_spec _ _ hcb hpay3).2.1
            · rw [htot]
              exact (computeTotals_spec _ _ hcb hpay3).2.2

/-- C2: after every charge or payment operation the computed totals
satisfy `balanceDue = roundCurrency (grandTotal - paymentsTotal)` with
`grandTotal` the sum of `totalAmount` over the bill's charges and
`paymentsTotal` the sum of `amount` over the reservation's payments
(`computeTotals` on a store whose monetary values are at currency
precision, which every operation preserves), and the synchronisation
step writes a billing snapshot carrying exactly these values. -/
theorem billing_balance_invariant :
    (∀ (bill : BillRecord) (payments : List PaymentRecord),
      (∀ c ∈ bill.charges, IsRounded c.totalAmount) →
      (∀ p ∈ payments, IsRounded p.amount) →
      (computeTotals bill payments).grandTotal =
        bill.charges.foldl (fun sum c => sum + c.totalAmount) 0 ∧
      (computeTotals bill payments).paymentsTotal =
        payments.foldl (fun sum p => sum + p.amount) 0 ∧
      (computeTotals bill payments).balanceDue =
        roundCurrency
          (bill.charges.foldl (fun sum c => sum + c.totalAmount) 0 -
            payments.foldl (fun sum p => sum + p.amount) 0)) ∧
    (∀ (st : Db) (r : ReservationRecord) (bill : BillRecord) (st1 : Db)
        (totals : BillTotals),
      syncReservationBilling st r bill = (st1, .ok totals) →
      totals = computeTotals bill (getPaymentsForReservation st1 r.id) ∧
      ∃ r', st1.reservations.find? (fun x => x.id == r.id) = some r' ∧
        r'.billing.totalAmount = totals.grandTotal ∧
        r'.billing.balanceDue = totals.balanceDue) ∧
    (∀ (st : Db) (input : RoomChargeInput) (st1 : Db)
        (out : RoomChargesResult),
      WellFormedDb st → (∀ b ∈ st.bills, goodId st.nextId b.id) →
      UniqueBillIds st → postRoomCharges st input = (st1, .ok out) →
      WellFormedDb st1 ∧
      out.totals.grandTotal =
        out.bill.charges.foldl (fun sum c => sum + c.totalAmount) 0 ∧
      out.totals.paymentsTotal =
        out.payments.foldl (fun sum p => sum + p.amount) 0 ∧
      out.totals.balanceDue =
        roundCurrency
          (out.bill.charges.foldl (fun sum c => sum + c.totalAmount) 0 -
            out.payments.foldl (fun sum p => sum + p.amount) 0)) ∧
    (∀ (st : Db) (input : AddonChargeInput) (st1 : Db)
        (out : AddonChargeResult),
      WellFormedDb st → (∀ b ∈ st.bills, goodId st.nextId b.id) →
      UniqueBillIds st → addAddonCharge st input = (st1, .ok out) →
      WellFormedDb st1 ∧
      out.totals.grandTotal =
        out.bill.charges.foldl (fun sum c => sum + c.totalAmount) 0 ∧
      out.totals.paymentsTotal =
        out.payments.foldl (fun sum p => sum + p.amount) 0 ∧
      out.totals.balanceDue =
        roundCurrency
          (out.bill.charges.foldl (fun sum c => sum + c.totalAmount) 0 -
            out.payments.foldl (fun sum p => sum + p.amount) 0)) ∧
    (∀ (st : Db) (input : SettleBillInput) (st1 : Db)
        (out : SettleBillResult),
      WellFormedDb st → (∀ b ∈ st.bills, goodId st.nextId b.id) →
      UniqueBillIds st → settleBill st input = (st1, .ok out) →
      WellFormedDb st1 ∧
      out.totals.grandTotal =
        out.bill.charges.foldl (fun sum c => sum + c.totalAmount) 0 ∧
      out.totals.paymentsTotal =
        out.payments.foldl (fun sum p => sum + p.amount) 0 ∧
      out.totals.balanceDue =
        roundCurrency
          (out.bill.charges.foldl (fun sum c => sum + c.totalAmount) 0 -
            out.payments.foldl (fun sum p => sum + p.amount) 0)) := by
  refine ⟨?_, ?_, ?_, ?_, ?_⟩
  · exact fun bill payments hc hp => computeTotals_spec bill payments hc hp
  · intro st r bill st1 totals h
    obtain ⟨htot, _, _, _, _, _, _, r', hfind, h1, h2, _⟩ :=
      syncReservationBilling_spec st r bill st1 totals h
    exact ⟨htot, r', hfind, h1, h2⟩
  · exact fun st input st1 out hwf hfresh huniq h =>
      postRoomCharges_wf_spec st input st1 out hwf hfresh huniq h
  · exact fun st input st1 out hwf hfresh huniq h =>
      addAddonCharge_wf_spec st input st1 out hwf hfresh huniq h
  · exact fun st input st1 out hwf hfresh huniq h =>
      settleBill_wf_spec st input st1 out hwf hfresh huniq h

/-- Witness for the C2 theorem at the concrete store: the hypotheses
hold and the posted totals satisfy the balance equation. -/
theorem billing_balance_invariant_witness :
    WellFormedDb dbC4 ∧
    (WellFormedDb dbC4 ∧
      outC4.totals.grandTotal =
        outC4.bill.charges.foldl (fun sum c => sum + c.totalAmount) 0 ∧
      outC4.totals.paymentsTotal =
        outC4.payments.foldl (fun sum p => sum + p.amount) 0 ∧
      outC4.totals.balanceDue =
        roundCurrency
          (outC4.bill.charges.foldl (fun sum c => sum + c.totalAmount) 0 -
            outC4.payments.foldl (fun sum p => sum + p.amount) 0)) := by
  have hwf : WellFormedDb dbC4 := by
    constructor
    · intro b hb c hc
      simp [dbC4] at hb
      subst hb
      simp [billC4] at hc
      subst hc
      show roundCurrency chargeC4.totalAmount = chargeC4.totalAmount
      norm_num [chargeC4, roundCurrency, round_eq]
    · intro p hp
      simp [dbC4] at hp
  have hfresh : ∀ b ∈ dbC4.bills, goodId dbC4.nextId b.id := by
    intro b hb
    simp [dbC4] at hb
    subst hb
    intro hg
    simp [billC4, isGenId] at hg
  have huniq : UniqueBillIds dbC4 := by
    unfold UniqueBillIds
    decide
  exact ⟨hwf, billing_balance_invariant.2.2.1 dbC4 inputC4 dbC4 outC4
    hwf hfresh huniq postRoomChargesC4_eval⟩

/-- `ensureBillForReservation` never fails: with a fresh id counter the
lazy insert cannot collide. -/
theorem ensureBill_total (st : Db) (r : ReservationRecord)
    (hfreshB : ∀ b ∈ st.bills, goodId st.nextId b.id) :
    ∃ st1 bill, ensureBillForReservation st r = (st1, .ok bill) := by
  rcases hE : ensureBillForReservation st r with ⟨st1, e | bill⟩
  · exfalso
    unfold ensureBillForReservation at hE
    rcases hfound : st.bills.find? (fun b => b.reservationId == r.id)
      with _ | existing
    · have hnocoll : (st.bills.any
          (fun x => x.id == genId (st.nextId + 1))) = false :=
        any_eq_genId_eq_false (fun x => x.id) st.bills (st.nextId + 1)
          (fun b hb => goodId_mono _ (hfreshB b hb) (Nat.le_succ _))
      simp only [hfound, insertBill, hnocoll, Bool.false_eq_true,
        if_false] at hE
      simp at hE
    · simp only [hfound] at hE
      simp at hE
  · exact ⟨st1, bill, rfl⟩

/-- `resolveFolio` never fails when no folio id is given: a folio name
matches or is created, and otherwise the first (possibly newly created
default) folio is used. -/
theorem resolveFolio_total (st : Db) (bl : BillRecord)
    (fid fname : Option String) (hfid : truthyOpt fid = none)
    (huniq : UniqueBillIds st) (hmem : bl ∈ st.bills) :
    ∃ st1 rb folio, resolveFolio st bl fid fname =
      (st1, .ok (rb, folio)) := by
  have hbid : st.bills.find? (fun x => x.id == bl.id) = some bl :=
    find_self_of_nodup st.bills bl huniq hmem
  rcases hE : resolveFolio st bl fid fname with ⟨st1, e | ⟨rb, folio⟩⟩
  · exfalso
    unfold resolveFolio at hE
    rcases hfn : truthyOpt fname with _ | fn
    · rcases hhead : bl.folios.head? with _ | f
      · simp only [hfid, hfn, hhead, updateBillsTable, hbid] at hE
        simp at hE
      · simp only [hfid, hfn, hhead] at hE
        simp at hE
    · rcases hm : bl.folios.find? (fun f => f.name.toLower == fn.toLower)
        with _ | m
      · simp only [hfid, hfn, hm, updateBillsTable, hbid] at hE
        simp at hE
      · simp only [hfid, hfn, hm] at hE
        simp at hE
  · exact ⟨st1, rb, folio, rfl⟩

/-- The settle loop aborts at the first non-positive payment: one
Payment record per preceding valid payment has been inserted, the
reservation table is untouched, and every stored bill keeps its id and
its charges (folio resolution for the preceding payments may add
folios, never charges).  Preceding payments may reference folios by
name; a folio-id reference could instead fail the lookup first. -/
theorem settleLoop_prefix_writes (reservation : ReservationRecord)
    (bad : SettlementPaymentInput) (rest : List SettlementPaymentInput)
    (hbad : bad.amount ≤ 0) :
    ∀ (pre : List SettlementPaymentInput) (st : Db) (bl : BillRecord)
      (acc : List PaymentRecord),
      (∀ p ∈ pre, 0 < p.amount) →
      (∀ p ∈ pre, truthyOpt p.folioId = none) →
      UniqueBillIds st → bl ∈ st.bills →
      (∀ p ∈ st.payments, goodId st.nextId p.id) →
      ∃ st' news,
        settleLoop reservation st bl acc (pre ++ bad :: rest) =
          (st', .error ⟨400, "Payment amount must be greater than zero"⟩) ∧
        st'.payments = st.payments ++ news ∧
        news.length = pre.length ∧
        (∀ r ∈ news, r.reservationId = reservation.id) ∧
        st'.reservations = st.reservations ∧
        (∀ b ∈ st'.bills, ∃ b0 ∈ st.bills,
          b.id = b0.id ∧ b.charges = b0.charges) := by
  intro pre
  induction pre with
  | nil =>
    intro st bl acc _ _ _ _ _
    refine ⟨st, [], ?_, by simp, rfl, by simp, rfl, ?_⟩
    · simp only [List.nil_append, settleLoop, if_pos hbad]
    · intro b hb
      exact ⟨b, hb, rfl, rfl⟩
  | cons p pre ih =>
    intro st bl acc hpos hfid huniq hmem hfresh
    obtain ⟨st1, rb, folio, hresEq⟩ :=
      resolveFolio_total st bl p.folioId p.folioName
        (hfid p (by simp)) huniq hmem
    obtain ⟨hrbch, hrbid, _hrbres, h1res, h1pay, _h1tax, _h1rooms,
      _h1time, _htrans, hrbmem, h1uniq, h1next, _hstab, h1cont⟩ :=
      resolveFolio_spec st bl p.folioId p.folioName st1 rb folio
        huniq hmem hresEq
    have hfresh1 : ∀ q ∈ st1.payments, goodId st1.nextId q.id := by
      intro q hq
      rw [h1pay] at hq
      exact goodId_mono _ (hfresh q hq) h1next
    have hnocoll : (st1.payments.any
        (fun x => x.id == genId st1.nextId)) = false :=
      any_eq_genId_eq_false (fun x => x.id) st1.payments st1.nextId hfresh1
    obtain ⟨st', news, heq, hpay, hlen, hresid, hresv, hbills⟩ :=
      ih { st1 with
            payments := st1.payments ++
              [{ id := genId st1.nextId
                 hotelId := reservation.hotelId
                 hotelCode := reservation.hotelCode
                 reservationId := reservation.id
                 folioId := folio
                 amount := roundCurrency p.amount
                 currency := p.currency.getD reservation.billing.currency
                 mode := p.mode
                 reference := p.reference
                 receivedAt := st1.time
                 createdAt := st1.time
                 updatedAt := st1.time }]
            nextId := st1.nextId + 1 }
        rb
        (acc ++
          [{ id := genId st1.nextId
             hotelId := reservation.hotelId
             hotelCode := reservation.hotelCode
             reservationId := reservation.id
             folioId := folio
             amount := roundCurrency p.amount
             currency := p.currency.getD reservation.billing.currency
             mode := p.mode
             reference := p.reference
             receivedAt := st1.time
             createdAt := st1.time
             updatedAt := st1.time }])
        (fun q hq => hpos q (by simp [hq]))
        (fun q hq => hfid q (by simp [hq]))
        h1uniq hrbmem
        (by
          intro q hq
          simp only [List.mem_append, List.mem_singleton] at hq
          rcases hq with hq | hq
          · exact goodId_mono _ (hfresh1 q hq) (Nat.le_succ _)
          · subst hq
            intro hg
            simp [genId_length])
    refine ⟨st',
      ({ id := genId st1.nextId
         hotelId := reservation.hotelId
         hotelCode := reservation.hotelCode
         reservationId := reservation.id
         folioId := folio
         amount := roundCurrency p.amount
         currency := p.currency.getD reservation.billing.currency
         mode := p.mode
         reference := p.reference
         receivedAt := st1.time
         createdAt := st1.time
         updatedAt := st1.time } : PaymentRecord) :: news,
      ?_, ?_, by simp [hlen], ?_, ?_, ?_⟩
    · rw [List.cons_append]
      simp only [settleLoop]
      rw [if_neg (not_le.mpr (hpos p (by simp)))]
      simp only [hresEq, insertPayment, hnocoll, Bool.false_eq_true,
        if_false]
      exact heq
    · rw [hpay, h1pay]
      simp
    · intro r hr
      rcases List.mem_cons.mp hr with hr | hr
      · subst hr
        rfl
      · exact hresid r hr
    · rw [hresv]
      exact h1res
    · intro b hb
      obtain ⟨b0, hb0, hid, hch⟩ := hbills b hb
      rcases h1cont b0 hb0 with hbe | hbm
      · subst hbe
        exact ⟨bl, hmem, hid.trans hrbid, hch.trans hrbch⟩
      · exact ⟨b0, hbm, hid, hch⟩

/-- C7 (amended).  `settleBill` validates payment amounts one at a time
while iterating, not before any write: with valid payments followed by a
non-positive one, the call fails with the validation error, but by then
each preceding valid payment has already been inserted as a Payment
record, the reservation's bill has been created (empty) by
`ensureBillForReservation` if it was missing, and folios referenced by
name by the preceding payments have been added to the bill by
`resolveFolio`; the reservation table and the charges of every stored
bill are unchanged.  (A preceding payment naming a missing folio id
fails the folio lookup first, with a 404 instead.) -/
theorem settleBill_inserts_prefix_before_failing
    (st : Db) (rid : String) (pre : List SettlementPaymentInput)
    (bad : SettlementPaymentInput) (rest : List SettlementPaymentInput)
    (reservation : ReservationRecord)
    (hfind : st.reservations.find? (fun r => r.id == rid) = some reservation)
    (hfreshB : ∀ b ∈ st.bills, goodId st.nextId b.id)
    (hfreshP : ∀ p ∈ st.payments, goodId st.nextId p.id)
    (huniq : UniqueBillIds st)
    (hpre : ∀ p ∈ pre, 0 < p.amount)
    (hprefid : ∀ p ∈ pre, truthyOpt p.folioId = none)
    (hbad : bad.amount ≤ 0) :
    ∃ st' news,
      settleBill st { reservationId := rid, payments := pre ++ bad :: rest } =
        (st', .error ⟨400, "Payment amount must be greater than zero"⟩) ∧
      st'.payments = st.payments ++ news ∧
      news.length = pre.length ∧
      (∀ r ∈ news, r.reservationId = reservation.id) ∧
      st'.reservations = st.reservations ∧
      (∀ b ∈ st'.bills, (∃ b0 ∈ st.bills,
        b.id = b0.id ∧ b.charges = b0.charges) ∨ b.charges = []) := by
  obtain ⟨stA, bill, hens⟩ := ensureBill_total st reservation hfreshB
  obtain ⟨hRid, hAfind, hAres, hApay, hAtax, hArooms, hAtime, _hAorig,
    hAuniq, hAfresh, hAmem, hAcont, hAnext⟩ :=
    ensureBill_spec st reservation stA bill hfreshB huniq hens
  have hAfreshP : ∀ q ∈ stA.payments, goodId stA.nextId q.id := by
    intro q hq
    rw [hApay] at hq
    exact goodId_mono _ (hfreshP q hq) hAnext
  obtain ⟨st', news, heq, hpay, hlen, hresid, hresv, hbills⟩ :=
    settleLoop_prefix_writes reservation bad rest hbad pre stA bill []
      hpre hprefid hAuniq hAmem hAfreshP
  refine ⟨st', news, ?_, ?_, hlen, hresid, ?_, ?_⟩
  · unfold settleBill
    have hne : ((pre ++ bad :: rest).isEmpty) = false := by simp
    simp only [hne, Bool.false_eq_true, if_false, hfind, hens, heq]
  · rw [hpay, hApay]
  · rw [hresv, hAres]
  · intro b hb
    obtain ⟨b0, hb0, hid, hch⟩ := hbills b hb
    rcases hAcont b0 hb0 with hbm | hbc
    · exact Or.inl ⟨b0, hbm, hid, hch⟩
    · exact Or.inr (hch.trans hbc)

/-- Witness for the amended C7 at `dbC7` with one valid and one invalid
payment. -/
theorem settleBill_inserts_prefix_before_failing_witness :
    (∀ p ∈ [payC7good], 0 < p.amount) ∧
    (∀ p ∈ [payC7good], truthyOpt p.folioId = none) ∧
    payC7bad.amount ≤ 0 ∧
    (∃ st' news,
      settleBill dbC7 { reservationId := "r7"
                        payments := [payC7good] ++ payC7bad :: [] } =
        (st', .error ⟨400, "Payment amount must be greater than zero"⟩) ∧
      st'.payments = dbC7.payments ++ news ∧
      news.length = ([payC7good] : List SettlementPaymentInput).length ∧
      (∀ r ∈ news, r.reservationId = resC7.id) ∧
      st'.reservations = dbC7.reservations ∧
      (∀ b ∈ st'.bills, (∃ b0 ∈ dbC7.bills,
        b.id = b0.id ∧ b.charges = b0.charges) ∨ b.charges = [])) := by
  have hpre : ∀ p ∈ [payC7good], 0 < p.amount := by
    intro p hp
    simp only [List.mem_singleton] at hp
    subst hp
    norm_num [payC7good]
  have hprefid : ∀ p ∈ [payC7good], truthyOpt p.folioId = none := by
    intro p hp
    simp only [List.mem_singleton] at hp
    subst hp
    rfl
  have hbad : payC7bad.amount ≤ 0 := by norm_num [payC7bad]
  have hfreshB : ∀ b ∈ dbC7.bills, goodId dbC7.nextId b.id := by
    intro b hb
    simp [dbC7] at hb
    subst hb
    intro hg
    simp [billC7, isGenId] at hg
  have hfreshP : ∀ p ∈ dbC7.payments, goodId dbC7.nextId p.id := by
    intro p hp
    simp [dbC7] at hp
  have huniq : UniqueBillIds dbC7 := by
    unfold UniqueBillIds
    decide
  exact ⟨hpre, hprefid, hbad,
    settleBill_inserts_prefix_before_failing dbC7 "r7" [payC7good] payC7bad []
      resC7 (by decide) hfreshB hfreshP huniq hpre hprefid hbad⟩
